import Mathlib

/-!
Verification development for the brightsites-data-extractor repository.

The JavaScript source (src/lib/brightSites.js and the express server file)
is shallowly embedded here.  Dynamic JavaScript values are modelled by the
`JVal` inductive; code whose member accesses can raise a `TypeError`
(access on `null`/`undefined`, calling an array method on a non-array) is
embedded in the `Except String` monad, mirroring the exact evaluation
order of the source.  Guarded accesses (those the source performs only
after a truthiness or `== null` check) use the total accessor `JVal.getF`,
which is faithful because the guard rules out the throwing cases.
-/

set_option maxRecDepth 4000

namespace BrightSites

/-- Model of a JavaScript runtime value.  `undef` is JavaScript `undefined`
(the result of reading an absent property), distinct from `null`.
Objects are modelled as association lists in property-insertion order;
all object literals written in this file have distinct keys, matching
JavaScript object-literal semantics. -/
inductive JVal where
  | undef : JVal
  | null : JVal
  | bool : Bool → JVal
  | num : Int → JVal
  | str : String → JVal
  | arr : List JVal → JVal
  | obj : List (String × JVal) → JVal

namespace JVal

mutual

/-- Structural boolean equality on `JVal`. -/
def beq : JVal → JVal → Bool
  | .undef, .undef => true
  | .null, .null => true
  | .bool a, .bool b => a == b
  | .num a, .num b => a == b
  | .str a, .str b => a == b
  | .arr xs, .arr ys => beqL xs ys
  | .obj fs, .obj gs => beqP fs gs
  | _, _ => false

/-- Pointwise `beq` on value lists. -/
def beqL : List JVal → List JVal → Bool
  | [], [] => true
  | x :: xs, y :: ys => beq x y && beqL xs ys
  | _, _ => false

/-- Pointwise `beq` on property lists. -/
def beqP : List (String × JVal) → List (String × JVal) → Bool
  | [], [] => true
  | (k, v) :: fs, (l, w) :: gs => k == l && beq v w && beqP fs gs
  | _, _ => false

end

theorem beqL_iff (xs ys : List JVal)
    (ih : ∀ x ∈ xs, ∀ y, beq x y = true ↔ x = y) :
    beqL xs ys = true ↔ xs = ys := by
  induction xs generalizing ys with
  | nil => cases ys <;> simp [beqL]
  | cons x xs IH =>
    cases ys with
    | nil => simp [beqL]
    | cons y ys =>
      have h1 := ih x (by simp) y
      have h2 := IH ys (fun a ha y => ih a (by simp [ha]) y)
      simp [beqL, h1, h2]

theorem beqP_iff (fs gs : List (String × JVal))
    (ih : ∀ p ∈ fs, ∀ w, beq p.2 w = true ↔ p.2 = w) :
    beqP fs gs = true ↔ fs = gs := by
  induction fs generalizing gs with
  | nil => cases gs <;> simp [beqP]
  | cons p fs IH =>
    cases gs with
    | nil => simp [beqP]
    | cons q gs =>
      obtain ⟨k, v⟩ := p
      obtain ⟨l, w⟩ := q
      have h1 := ih (k, v) (by simp) w
      have h2 := IH gs (fun a ha w => ih a (by simp [ha]) w)
      simp [beqP, h1, h2, Prod.ext_iff, and_assoc]

theorem beq_iff_aux : ∀ (n : Nat) (a b : JVal), sizeOf a ≤ n →
    (beq a b = true ↔ a = b) := by
  intro n
  induction n with
  | zero =>
    intro a b h
    cases a <;> simp_all
  | succ n ih =>
    intro a b h
    cases a with
    | undef => cases b <;> simp [beq]
    | null => cases b <;> simp [beq]
    | bool x => cases b <;> simp [beq]
    | num x => cases b <;> simp [beq]
    | str x => cases b <;> simp [beq]
    | arr xs =>
      cases b <;> simp only [beq] <;> try simp
      case arr ys =>
        have hx : ∀ x ∈ xs, ∀ y, beq x y = true ↔ x = y := by
          intro x hx y
          apply ih
          have h1 := List.sizeOf_lt_of_mem hx
          simp at h
          omega
        simp [beqL_iff xs ys hx]
    | obj fs =>
      cases b <;> simp only [beq] <;> try simp
      case obj gs =>
        have hx : ∀ p ∈ fs, ∀ w, beq p.2 w = true ↔ p.2 = w := by
          intro p hp w
          apply ih
          have h1 := List.sizeOf_lt_of_mem hp
          have h2 : sizeOf p.2 < sizeOf p := by
            obtain ⟨k, v⟩ := p
            simp
          simp at h
          omega
        simp [beqP_iff fs gs hx]

theorem beq_iff (a b : JVal) : beq a b = true ↔ a = b :=
  beq_iff_aux (sizeOf a) a b (Nat.le_refl _)

instance : DecidableEq JVal :=
  fun a b => decidable_of_iff (beq a b = true) (beq_iff a b)

/-- JavaScript truthiness: `undefined`, `null`, `false`, `0` and `""` are
falsy; every other value (including every object and array) is truthy. -/
def truthy : JVal → Bool
  | undef => false
  | null => false
  | bool b => b
  | num n => n != 0
  | str s => s != ""
  | arr _ => true
  | obj _ => true

/-- A value on which property access throws a `TypeError`
(`null` or `undefined`). -/
def nullish : JVal → Bool
  | undef => true
  | null => true
  | _ => false

/-- Total property access.  On objects it is association-list lookup
(`undefined` when the key is absent); on strings and arrays the `length`
property is materialised; on other primitives property access autoboxes
and yields `undefined`.  Callers must only use this where the source
guards against `null`/`undefined` receivers; `getE` is the throwing
version. -/
def getF : JVal → String → JVal
  | obj fs, k => ((fs.lookup k).getD undef)
  | str s, k => if k = "length" then num s.length else undef
  | arr xs, k => if k = "length" then num xs.length else undef
  | _, _ => undef

/-- Property access with JavaScript `TypeError` semantics: throws on
`null`/`undefined` receivers, otherwise `getF`. -/
def getE (v : JVal) (k : String) : Except String JVal :=
  if v.nullish then Except.error ("TypeError: cannot read " ++ k)
  else Except.ok (v.getF k)

/-- JavaScript `a || b` on already-computed values. -/
def jsOr (a b : JVal) : JVal := if a.truthy then a else b

/-- JavaScript `a && b` on already-computed values. -/
def jsAnd (a b : JVal) : JVal := if a.truthy then b else a

/-- JavaScript default-parameter rule: `undefined` (and only `undefined`)
is replaced by the default. -/
def jsDefault (v d : JVal) : JVal :=
  match v with
  | undef => d
  | v => v

/-- Strict equality (`===`) against a string literal. -/
def strictEqStr (v : JVal) (s : String) : Bool :=
  match v with
  | str t => t = s
  | _ => false

/-- JavaScript `String(v)` conversion.  Array conversion joins the
element conversions with `","`, rendering `null`/`undefined` elements as
the empty string (the `Array.prototype.join` rule). -/
def toStr : JVal → String
  | undef => "undefined"
  | null => "null"
  | bool b => cond b "true" "false"
  | num n => toString n
  | str s => s
  | obj _ => "[object Object]"
  | arr xs => String.intercalate "," (xs.attach.map (fun p =>
      if p.1.nullish then "" else toStr p.1))
decreasing_by
  have := List.sizeOf_lt_of_mem p.2
  simp_wf
  omega

/-- Whitespace for the JavaScript `.trim()` model (the common ASCII
whitespace characters plus no-break space). -/
def isWsChar (c : Char) : Bool :=
  c = ' ' || c = '\t' || c = '\n' || c = '\r' || c = '\x0b' || c = '\x0c' || c = '\xa0'

/-- Structural model of JavaScript `String.prototype.trim`: strip
leading and trailing whitespace.  (Defined on the character list so it
reduces definitionally; `String.trim` itself is implemented with
well-founded recursion.) -/
def strTrim (s : String) : String :=
  String.mk (((s.data.dropWhile isWsChar).reverse.dropWhile isWsChar).reverse)

/-- Strict equality (`===`) against a number literal. -/
def strictEqNum (v : JVal) (n : Int) : Bool :=
  match v with
  | num m => m = n
  | _ => false

/-- The `Array.isArray` test. -/
def isArray : JVal → Bool
  | arr _ => true
  | _ => false

/-- Index `0` access on an array value (used only where the source has
established the receiver is an array). -/
def idx0 : JVal → JVal
  | arr (x :: _) => x
  | _ => undef

end JVal

open JVal

/-- JavaScript `a || b` where evaluating either operand may throw; the
second operand's effect is only taken when the first is falsy
(short-circuit). -/
def jsOrE (a b : Except String JVal) : Except String JVal := do
  let va ← a
  if va.truthy then pure va else b

/-- The `Array.prototype.join` rule: elements are converted with
`String(...)` except `null`/`undefined`, which render as the empty
string. -/
def jsJoin (xs : List JVal) (sep : String) : String :=
  String.intercalate sep (xs.map (fun v => if v.nullish then "" else v.toStr))

/-- The `joinNonEmpty` helper of brightSites.js: drop entries that are
`undefined`, `null` or blank once stringified, then join. -/
def joinNonEmpty (parts : List JVal) (sep : String) : String :=
  String.intercalate sep
    (((parts.filter (fun p => !p.nullish && strTrim p.toStr != "")).map toStr))

/-- One `Set.add`: append unless already present. -/
def insertIfAbsent {α : Type} [BEq α] (acc : List α) (x : α) : List α :=
  if acc.contains x then acc else acc ++ [x]

/-- Iteration order of a JavaScript `Set` built by repeated `add`:
first-seen order, duplicates dropped.  Faithful for primitive members,
where `SameValueZero` coincides with structural equality; the theorems
that rely on deduplication restrict members to primitives. -/
def dedupKeepFirst {α : Type} [BEq α] (xs : List α) : List α :=
  xs.foldl insertIfAbsent []

/-- The expression `arr.map(String)` — throws when the receiver is not an
array (no `map` method). -/
def mapStringE (v : JVal) : Except String (List String) :=
  match v with
  | .arr xs => .ok (xs.map toStr)
  | _ => .error "TypeError: v.map is not a function"

/-- The expression `arr.map((x) => String(x.id || x))` from
`trackingForLineItem`; the member access `x.id` throws on a
`null`/`undefined` element. -/
def lineItemIdStrs (v : JVal) : Except String (List String) :=
  match v with
  | .arr xs => xs.mapM (fun x => do
      let xid ← x.getE "id"
      pure (jsOr xid x).toStr)
  | _ => .error "TypeError: v.map is not a function"

/-- One iteration of the `shipments.forEach` body of
`trackingForLineItem` (brightSites.js lines 184–193), threading the
`found` set.  Accesses mirror source evaluation order: the tracking
number is read first and a falsy tracking short-circuits the line-item
id work. -/
def trackingStep (liId : JVal) (found : List JVal) (s : JVal) :
    Except String (List JVal) := do
  let tn ← s.getE "tracking_number"
  let t := jsOr tn (jsOr (s.getF "tracking") (.str ""))
  if !t.truthy then
    pure found
  else do
    let ids ← mapStringE (jsOr (s.getF "line_item_ids") (.arr []))
    let sLineItems ← lineItemIdStrs (jsOr (s.getF "line_items") (.arr []))
    if ids.contains liId.toStr || sLineItems.contains liId.toStr then
      pure (insertIfAbsent found t)
    else
      pure found

/-- The array-iterating part of `trackingForLineItem` (the `forEach`
over shipments, the `found`-set test and the order-level fallback,
brightSites.js lines 183–199). -/
def trackingCore (liId : JVal) (xs : List JVal) : Except String String := do
  let found ← xs.foldlM (trackingStep liId) []
  if found.length > 0 then
    pure (jsJoin found "; ")
  else do
    let anyAll ← xs.mapM (fun s => do
      let tn ← s.getE "tracking_number"
      pure (jsOr tn (jsOr (s.getF "tracking") (.str ""))))
    let any := anyAll.filter (fun v => v.truthy)
    if any.length > 0 then
      pure (jsJoin (dedupKeepFirst any) "; ")
    else
      pure ""

/-- Model of `trackingForLineItem({ order, shipments } = {}, lineItemId)`
(brightSites.js lines 181–200).  The destructuring parameter reads both
properties (throwing on a `null` argument); the body returns `''` for a
falsy or empty shipment list, collects matching non-empty tracking
values into an insertion-ordered set, and otherwise falls back to the
set of all truthy tracking values. -/
def trackingForLineItem (ctx liId : JVal) : Except String String := do
  let c := jsDefault ctx (.obj [])
  let _order ← c.getE "order"
  let shipments ← c.getE "shipments"
  if !shipments.truthy || strictEqNum (shipments.getF "length") 0 then
    pure ""
  else
    match shipments with
    | .arr xs => trackingCore liId xs
    | _ => .error "TypeError: shipments.forEach is not a function"

/-- The `get(obj, ...keys)` alias-resolution helper local to
`composeAddressBlob` (brightSites.js lines 121–127): first key whose
value is neither `undefined` nor `null` and whose string form is not
blank wins; a falsy receiver skips every key; fallback is `''`. -/
def get (obj : JVal) : List String → JVal
  | [] => .str ""
  | k :: rest =>
    if !obj.truthy then get obj rest
    else
      let v := obj.getF k
      if !v.nullish && strTrim v.toStr != "" then v else get obj rest

/-- The `.trim()` method call: a `TypeError` on non-strings. -/
def trimE (v : JVal) : Except String String :=
  match v with
  | .str s => .ok (strTrim s)
  | _ => .error "TypeError: v.trim is not a function"

/-- The `role` local of `composeAddressBlob`:
`extras && extras.role ? extras.role : 'auto'`. -/
def cabRole (extras : JVal) : JVal :=
  if (jsAnd extras (extras.getF "role")).truthy then extras.getF "role"
  else .str "auto"

/-- The `contactFallback` local of `composeAddressBlob` (lines 130–133);
the unguarded `order.billing_contact` / `order.shipping_contact`
accesses throw when `order` is `null`. -/
def cabContactFallback (order role : JVal) : Except String JVal :=
  if role.strictEqStr "billing" then do
    let a ← order.getE "billing_contact"
    pure (jsOr a (jsOr (order.getF "shipping_contact") (.obj [])))
  else if role.strictEqStr "shipping" then do
    let a ← order.getE "shipping_contact"
    pure (jsOr a (jsOr (order.getF "billing_contact") (.obj [])))
  else do
    let a ← order.getE "shipping_contact"
    pure (jsOr a (jsOr (order.getF "billing_contact") (.obj [])))

/-- The `contact` local of `composeAddressBlob` (line 134). -/
def cabContact (addr contactFallback : JVal) : JVal :=
  if (jsAnd addr (jsOr (addr.getF "first_name") (jsOr (addr.getF "last_name")
      (jsOr (addr.getF "email") (addr.getF "phone"))))).truthy then addr
  else contactFallback

/-- The `first` local of `composeAddressBlob` (line 140). -/
def cabFirst (addr contact : JVal) : JVal :=
  jsOr (get addr ["first_name", "first", "firstName", "firstname"])
    (get contact ["first_name", "first", "firstName", "firstname"])

/-- The `last` local of `composeAddressBlob` (line 141). -/
def cabLast (addr contact : JVal) : JVal :=
  jsOr (get addr ["last_name", "last", "lastName", "lastname"])
    (get contact ["last_name", "last", "lastName", "lastname"])

/-- The name ternary of `composeAddressBlob` (line 142): when first or
last is truthy, both are trimmed (a trim call that throws when an alias
resolved to a truthy non-string) and joined; otherwise the empty
string. -/
def cabNameTern (first last : JVal) : Except String String :=
  if (jsOr first last).truthy then do
    let f ← trimE (jsOr first (.str ""))
    let l ← trimE (jsOr last (.str ""))
    pure (strTrim (f ++ " " ++ l))
  else pure ""

/-- The throw-free remainder of `composeAddressBlob` (lines 135–178):
the `orderAddr`/`shipment`/`shipmentAddr` locals and every field
resolution after the name ternary.  Grouped into one total function;
all of it is pure, so evaluating it after the name ternary instead of
around it preserves the source's observable behaviour. -/
def cabAssemble (addr order extras role contact : JVal) (nameTern : String) : String :=
  let orderAddr :=
    if role.strictEqStr "billing" then
      jsOr (order.getF "billing_address") (jsOr (order.getF "shipping_address") (.obj []))
    else if role.strictEqStr "shipping" then
      jsOr (order.getF "shipping_address") (jsOr (order.getF "billing_address") (.obj []))
    else
      jsOr (order.getF "shipping_address") (jsOr (order.getF "billing_address") (.obj []))
  let shipCand := jsOr (extras.getF "shipment")
    (jsAnd (JVal.bool ((extras.getF "shipments").isArray)) ((extras.getF "shipments").idx0))
  let shipment := if (jsAnd extras shipCand).truthy then shipCand else .null
  let shipmentAddr :=
    if shipment.truthy then
      jsOr (shipment.getF "shipping_address") (jsOr (shipment.getF "address")
        (jsOr (shipment.getF "to_address") (jsOr (shipment.getF "recipient") (.obj []))))
    else .obj []
  let name := joinNonEmpty [.str nameTern] " | "
  let fn1 :=
    if name = "" then
      let oName := get order ["customer_name", "customer", "customer_full_name", "customerDisplayName"]
      if oName.truthy then strTrim oName.toStr else name
    else name
  let finalName :=
    if fn1 = "" ∧ shipment.truthy then
      let sName := get shipmentAddr ["name", "recipient_name", "to_name", "recipient", "full_name"]
      if sName.truthy then strTrim sName.toStr else fn1
    else fn1
  let company := jsOr (get addr ["company", "business", "org"])
    (jsOr (get orderAddr ["company"]) (get shipmentAddr ["company"]))
  let address1 := jsOr (get addr ["address1", "first_address", "firstAddress", "address", "street1"])
    (jsOr (get orderAddr ["first_address", "firstAddress", "address1", "street1"])
      (jsOr (get shipmentAddr ["address1", "first_address", "address", "street1"]) (.str "")))
  let address2 := jsOr (get addr ["address2", "second_address", "secondAddress", "address_line_2", "street2"])
    (jsOr (get orderAddr ["second_address", "secondAddress", "address2"])
      (jsOr (get shipmentAddr ["address2", "second_address"]) (.str "")))
  let addrLine := joinNonEmpty [address1, address2] " "
  let city := jsOr (get addr ["city", "town"])
    (jsOr (get orderAddr ["city"]) (jsOr (get shipmentAddr ["city"]) (.str "")))
  let state := jsOr (get addr ["state", "province", "region"])
    (jsOr (get orderAddr ["state"]) (jsOr (get shipmentAddr ["state"]) (.str "")))
  let zip := jsOr (get addr ["zip", "postcode", "postal_code"])
    (jsOr (get addr ["postal"])
      (jsOr (get orderAddr ["zip", "postcode", "postal_code"])
        (jsOr (get shipmentAddr ["zip", "postal_code"]) (.str ""))))
  let stateZip := strTrim (jsJoin ([state, zip].filter (fun v => v.truthy)) " ")
  let cityStateZip := joinNonEmpty ([city, .str stateZip].filter (fun v => v.truthy)) ", "
  let country := jsOr (get addr ["country", "country_name"])
    (jsOr (get orderAddr ["country"]) (jsOr (get shipmentAddr ["country"]) (.str "")))
  let email := jsOr (get addr ["email", "contact_email"])
    (jsOr (get contact ["email"])
      (jsOr (get order ["customer_email"])
        (jsOr (get order ["customer"]) (jsOr (get shipmentAddr ["email"]) (.str "")))))
  let phone := jsOr (get addr ["phone", "telephone", "contact_phone"])
    (jsOr (get contact ["phone"]) (jsOr (get order ["customer_phone"]) (.str "")))
  let parts : List JVal :=
    (if finalName != "" then [JVal.str finalName] else [])
    ++ (if company.truthy then [company] else [])
    ++ (if addrLine != "" then [JVal.str addrLine] else [])
    ++ (if cityStateZip != "" then [JVal.str cityStateZip] else [])
    ++ (if country.truthy then [country] else [])
    ++ (if email.truthy then [email] else [])
    ++ (if phone.truthy then [phone] else [])
  jsJoin parts " | "

/-- Model of `composeAddressBlob(addr = {}, order = {}, extras = {})`
(brightSites.js lines 116–179).  Possible throws, in source evaluation
order: the `contactFallback` member accesses on a `null` order
(`cabContactFallback`), and the `(first||'').trim()` /
`(last||'').trim()` calls when an alias resolves to a truthy non-string
(`cabNameTern`); everything else is `cabAssemble`. -/
def composeAddressBlob (addr0 order0 extras0 : JVal) : Except String String :=
  cabContactFallback (jsDefault order0 (.obj [])) (cabRole (jsDefault extras0 (.obj []))) >>=
    fun contactFallback =>
      cabNameTern
        (cabFirst (jsDefault addr0 (.obj []))
          (cabContact (jsDefault addr0 (.obj [])) contactFallback))
        (cabLast (jsDefault addr0 (.obj []))
          (cabContact (jsDefault addr0 (.obj [])) contactFallback)) >>=
        fun nameTern =>
          pure (cabAssemble (jsDefault addr0 (.obj [])) (jsDefault order0 (.obj []))
            (jsDefault extras0 (.obj [])) (cabRole (jsDefault extras0 (.obj [])))
            (cabContact (jsDefault addr0 (.obj [])) contactFallback) nameTern)

/-- Escaping for `JSON.stringify` string output (quote, backslash and
the common control characters; other characters pass through). -/
def jsonEscape (s : String) : String :=
  s.foldl (fun acc c =>
    acc ++ (if c = '"' then "\\\""
      else if c = '\\' then "\\\\"
      else if c = '\n' then "\\n"
      else if c = '\t' then "\\t"
      else if c = '\r' then "\\r"
      else String.singleton c)) ""

/-- Model of `JSON.stringify`.  `undefined` input yields no string (the
JavaScript call returns `undefined`); inside arrays `undefined`
serialises as `null`; object properties with `undefined` values are
skipped.  Circular structures (the only throwing case) cannot be
represented by `JVal`, so the model is total. -/
def jsonStringify : JVal → Option String
  | .undef => none
  | .null => some "null"
  | .bool b => some (cond b "true" "false")
  | .num n => some (toString n)
  | .str s => some ("\"" ++ jsonEscape s ++ "\"")
  | .arr xs => some ("[" ++ String.intercalate ","
      (xs.attach.map (fun p => (jsonStringify p.1).getD "null")) ++ "]")
  | .obj fs => some ("\x7b" ++ String.intercalate ","
      (fs.attach.filterMap (fun p =>
        match jsonStringify p.1.2 with
        | some v => some ("\"" ++ jsonEscape p.1.1 ++ "\":" ++ v)
        | none => none)) ++ "\x7d")
decreasing_by
  · have := List.sizeOf_lt_of_mem p.2
    simp_wf
    omega
  · have h1 := List.sizeOf_lt_of_mem p.2
    have h2 : sizeOf p.1.2 < sizeOf p.1 := by
      obtain ⟨q, hq⟩ := p
      obtain ⟨k, v⟩ := q
      simp
    simp_wf
    omega

/-- The element mapper of `formatProductOptions` (server file lines
58–69): `null`/`undefined` become `''`, strings pass through, objects
with `option_name`/`sub_option_name`-style keys render as
`"name: value"`, anything else is `JSON.stringify`-ed (whose `undefined`
result is later dropped by `filter(Boolean)`). -/
def formatOptionElem (o : JVal) : JVal :=
  if o.nullish then .str ""
  else match o with
  | .str s => .str s
  | _ =>
    if (jsOr (o.getF "option_name") (o.getF "sub_option_name")).truthy then
      let name := jsOr (o.getF "option_name") (jsOr (o.getF "name") (.str ""))
      let sub := jsOr (o.getF "sub_option_name") (jsOr (o.getF "value") (jsOr (o.getF "sub") (.str "")))
      .str (jsJoin ([name, sub].filter (fun v => v.truthy)) ": ")
    else
      match jsonStringify o with
      | none => .undef
      | some s => .str s

/-- Model of `formatProductOptions(opts)` (server file lines 54–81).
Every member access in the source is guarded by a `== null` or
truthiness check, so no branch can throw; the `Except` signature is kept
for uniformity with the other reconcilers. -/
def formatProductOptions (opts : JVal) : Except String String :=
  if !opts.truthy then pure ""
  else match opts with
  | .str s => pure s
  | .arr xs => pure (jsJoin ((xs.map formatOptionElem).filter (fun v => v.truthy)) "; ")
  | .obj fs => pure (String.intercalate "; " (fs.map (fun p => p.1 ++ ": " ++ p.2.toStr)))
  | v => pure v.toStr

/-- The attribute mapper inside `formatProductPersonalization` (server
file lines 93–98); the `a.key` access throws on a `null`/`undefined`
attribute entry. -/
def formatAttr (a : JVal) : Except String String :=
  match a with
  | .str s => pure s
  | _ => do
    let k0 ← a.getE "key"
    let k := jsOr k0 (jsOr (a.getF "name") (.str ""))
    let v := jsOr (a.getF "value") (jsOr (a.getF "val") (.str ""))
    pure (jsJoin ([k, v].filter (fun x => x.truthy)) ": ")

/-- The `attrs` computation of the per-item mapper (server file lines
92–99): present only when `item.attributes` is an array; the element
mapper can throw on nullish entries. -/
def persAttrs (v : JVal) : Except String String :=
  match v with
  | .arr as => do
    let mapped ← as.mapM formatAttr
    pure (String.intercalate ", " (mapped.filter (fun s => s != "")))
  | _ => pure ""

/-- The throw-free remainder of the per-item mapper (the `title` and
`price` locals and the parts join, server file lines 90 and 100–110;
`title` is pure, so computing it here rather than before the attribute
mapping preserves observable behaviour). -/
def persItemRender (item : JVal) (attrs : String) : String :=
  let title := jsOr (item.getF "title") (jsOr (item.getF "name") (.str ""))
  let price :=
    if (item.getF "price_modifier").truthy then
      let pm := item.getF "price_modifier"
      let pt := jsOr (pm.getF "modifier_type") (jsOr (pm.getF "type") (.str ""))
      let amt := jsOr (pm.getF "amount") (jsOr (pm.getF "value") (.str ""))
      if pt.truthy || amt.truthy then (jsOr pt (.str "")).toStr ++ (jsOr amt (.str "")).toStr
      else ""
    else ""
  let parts : List JVal :=
    (if title.truthy then [title] else [])
    ++ (if attrs != "" then [.str ("Attributes: " ++ attrs)] else [])
    ++ (if price != "" then [.str ("Price: " ++ price)] else [])
  jsJoin parts " | "

/-- The per-item mapper of `formatProductPersonalization` (server file
lines 88–111). -/
def formatPersItem (item : JVal) : Except String String :=
  if !item.truthy then pure ""
  else
    persAttrs (item.getF "attributes") >>= fun attrs =>
      pure (persItemRender item attrs)

/-- The array branch of `formatProductPersonalization`: empty string
for an empty list, else the item renderings joined with a spaced
semicolon after dropping blanks. -/
def persArrBranch (items : List JVal) : Except String String :=
  if items.length = 0 then pure ""
  else do
    let mapped ← items.mapM formatPersItem
    pure (String.intercalate " ; " (mapped.filter (fun s => s != "")))

/-- Model of `formatProductPersonalization(pp)` (server file lines
83–112). -/
def formatProductPersonalization (pp : JVal) : Except String String :=
  if !pp.truthy then pure ""
  else match pp with
  | .str s => pure s
  | _ =>
    match (if pp.isArray then pp
      else jsOr (pp.getF "personalizations") (jsOr (pp.getF "product_personalizations") (.arr []))) with
    | .arr items => persArrBranch items
    | _ => pure ""

/-- Outcome of one underlying `fetch(url, opts)` attempt: a transport
exception, or an HTTP response with status, status text and body text
(the `res.text()` content; its `.catch(() => '')` guard means reading
the body never throws). -/
inductive FetchOutcome where
  | throws (msg : String) : FetchOutcome
  | resp (status : Nat) (statusText : String) (body : String) : FetchOutcome

/-- An HTTP response as `safeFetch` returns it. -/
structure Resp where
  status : Nat
  statusText : String
  body : String
deriving DecidableEq, Repr

/-- The `res.ok` flag of fetch: status in the 2xx range. -/
def respOk (status : Nat) : Bool := 200 ≤ status && status < 300

/-- The error message `safeFetch` builds for a non-2xx response. -/
def httpErrMsg (status : Nat) (statusText body : String) : String :=
  "HTTP " ++ toString status ++ " " ++ statusText ++ " - " ++ body

/-- The retry loop of `safeFetch` (brightSites.js lines 18–31), with the
attempt counter `i` explicit and `left` the number of attempts still
allowed after the current one.  Returns the result, the number of
attempts performed, and the list of delays slept (`sleep(delay)` runs
after every failed non-final attempt). -/
def safeFetchAux (attempts : Nat → FetchOutcome) (delay : Nat) (i : Nat) :
    Nat → Except String Resp × Nat × List Nat
  | 0 =>
    match attempts i with
    | .throws m => (.error m, 1, [])
    | .resp st sx b =>
      if respOk st then (.ok ⟨st, sx, b⟩, 1, [])
      else (.error (httpErrMsg st sx b), 1, [])
  | left + 1 =>
    match attempts i with
    | .resp st sx b =>
      if respOk st then (.ok ⟨st, sx, b⟩, 1, [])
      else
        let r := safeFetchAux attempts delay (i + 1) left
        (r.1, r.2.1 + 1, delay :: r.2.2)
    | .throws _ =>
      let r := safeFetchAux attempts delay (i + 1) left
      (r.1, r.2.1 + 1, delay :: r.2.2)

/-- Model of `safeFetch(url, opts, retries = 2, delay = 500)`: the
request descriptor is abstracted into the oracle `attempts` giving the
outcome of each underlying `fetch` call. -/
def safeFetch (attempts : Nat → FetchOutcome) (retries delay : Nat) :
    Except String Resp × Nat × List Nat :=
  safeFetchAux attempts delay 0 retries

/-- Array extraction from a page response body (brightSites.js lines
49–64): a bare array, an array under one of the known keys, the first
array-valued property otherwise (property insertion order models
`Object.values` order), or nothing. -/
def asArr : JVal → Option (List JVal)
  | .arr xs => some xs
  | _ => none

/-- Response-shape normalization of `fetchAllPages`. -/
def extractArr (json : JVal) : List JVal :=
  match json with
  | .arr xs => xs
  | .obj fs =>
    match asArr ((JVal.obj fs).getF "orders") with
    | some a => a
    | none =>
      match asArr ((JVal.obj fs).getF "items") with
      | some a => a
      | none =>
        match asArr ((JVal.obj fs).getF "data") with
        | some a => a
        | none =>
          match asArr ((JVal.obj fs).getF "results") with
          | some a => a
          | none =>
            match fs.find? (fun p => p.2.isArray) with
            | some p => (asArr p.2).getD []
            | none => []
  | _ => []

/-- The `while (true)` pagination loop of `fetchAllPages` (brightSites.js
lines 33–71).  `pageFetch page` abstracts `safeFetch` on the page-`page`
URL composed with `res.json()`: `.ok json` for a 2xx response with
parsed body `json`, `.error e` when `safeFetch` exhausts its retries and
throws (which `fetchAllPages` does not catch) or body parsing fails.
`fuel` bounds the number of iterations so the model is total; `none`
means the loop was still running when fuel ran out.  The accumulator
`out`, the 1-based `page` counter and the request count `reqs` are
explicit.  The source's `if (!res) break` line is unreachable
(`safeFetch` either returns a truthy response or throws) and has no
counterpart here. -/
def fetchAllPagesLoop (pageFetch : Nat → Except String JVal) (pageSize : Nat) :
    Nat → Nat → List JVal → Nat → Option (Except String (List JVal × Nat))
  | 0, _, _, _ => none
  | fuel + 1, page, out, reqs =>
    match pageFetch page with
    | .error e => some (.error e)
    | .ok json =>
      let a := extractArr json
      if a.length = 0 then some (.ok (out, reqs + 1))
      else if a.length < pageSize then some (.ok (out ++ a, reqs + 1))
      else fetchAllPagesLoop pageFetch pageSize fuel (page + 1) (out ++ a) (reqs + 1)

/-- Model of `fetchAllPages(path, params, pageSize, opts)`: result And
number of page requests issued. -/
def fetchAllPages (pageFetch : Nat → Except String JVal) (pageSize fuel : Nat) :
    Option (Except String (List JVal × Nat)) :=
  fetchAllPagesLoop pageFetch pageSize fuel 1 [] 0

/-- Model of `loadLineItems(orderId, opts)` (brightSites.js lines
73–81): falsy order id short-circuits to `[]`; a `fetchAllPages` throw
is caught and becomes `[]`. -/
def loadLineItems (pageFetch : Nat → Except String JVal) (orderId : JVal)
    (fuel : Nat) : Option (List JVal) :=
  if !orderId.truthy then some []
  else
    match fetchAllPages pageFetch 200 fuel with
    | none => none
    | some (.error _) => some []
    | some (.ok (out, _)) => some out

/-- Model of `loadShipments(orderId, opts)` (brightSites.js lines
83–91), identical in structure to `loadLineItems`. -/
def loadShipments (pageFetch : Nat → Except String JVal) (orderId : JVal)
    (fuel : Nat) : Option (List JVal) :=
  if !orderId.truthy then some []
  else
    match fetchAllPages pageFetch 200 fuel with
    | none => none
    | some (.error _) => some []
    | some (.ok (out, _)) => some out

/-- Model of `loadOrder(orderId, opts)` (brightSites.js lines 93–110):
falsy id or any throw yields `{}`; otherwise the parsed body with `{}`
for a falsy body.  `detailFetch` abstracts the single
`safeFetch` + `res.json()` call. -/
def loadOrder (detailFetch : Except String JVal) (orderId : JVal) : JVal :=
  if !orderId.truthy then .obj []
  else
    match detailFetch with
    | .error _ => .obj []
    | .ok json => jsOr json (.obj [])

/-- The body of one `promisePool` runner iteration applied at one index:
the worker's value, or the `{ error: String(err) }` marker (thrown
values are modelled as their `String(err)` rendering). -/
def poolSlot (worker : JVal → Nat → Except String JVal) (item : JVal)
    (idx : Nat) : JVal :=
  match worker item idx with
  | .ok v => v
  | .error e => .obj [("error", .str e)]

/-- Model of `promisePool(items, worker, concurrency)` (server file
lines 21–36).  The runners pull indices from a shared counter, so every
index below `items.length` is claimed by exactly one runner and
`results[idx]` is written exactly once, with the worker's value or the
error marker; the final `results` array is therefore independent of the
interleaving and of the pool width, which the model elides. -/
def promisePoolAux (worker : JVal → Nat → Except String JVal) :
    List JVal → Nat → List JVal
  | [], _ => []
  | x :: xs, idx => poolSlot worker x idx :: promisePoolAux worker xs (idx + 1)

/-- Entry point of the pool model: indices start at `0`. -/
def promisePool (items : List JVal) (worker : JVal → Nat → Except String JVal) :
    List JVal :=
  promisePoolAux worker items 0

/-- One property write of `Object.assign`: overwrite in place when the
key exists, append otherwise. -/
def setKey (fs : List (String × JVal)) (k : String) (v : JVal) :
    List (String × JVal) :=
  if (fs.lookup k).isSome then fs.map (fun p => if p.1 = k then (k, v) else p)
  else fs ++ [(k, v)]

/-- Own enumerable string-keyed properties of a value, as `Object.assign`
reads its sources.  Primitive and array sources contribute none that
this program observes. -/
def ownPairs : JVal → List (String × JVal)
  | .obj fs => fs
  | _ => []

/-- `Object.assign(target, source)` on property lists: source properties
written left to right. -/
def assignPairs (target source : List (String × JVal)) : List (String × JVal) :=
  source.foldl (fun acc p => setKey acc p.1 p.2) target

/-- The `mergedOrder` expression of the enrichment worker (server file
line 236): `Object.assign({}, order, fullOrder || {})`. -/
def mergedOrder (order fullOrder : JVal) : JVal :=
  .obj (assignPairs (assignPairs [] (ownPairs order)) (ownPairs (jsOr fullOrder (.obj []))))

/-- The `pick(obj, ...keys)` helper of the `/api/run` handler (server
file lines 302–309); same resolution rule as `get`. -/
def pick (obj : JVal) : List String → JVal
  | [] => .str ""
  | k :: rest =>
    if !obj.truthy then pick obj rest
    else
      let v := obj.getF k
      if !v.nullish && strTrim v.toStr != "" then v else pick obj rest

/-- JavaScript `a && b` where evaluating `b` may throw; `b`'s effect is
only taken when `a` is truthy. -/
def jsAndE (a : JVal) (b : Except String JVal) : Except String JVal :=
  if a.truthy then b else pure a

/-- The representative-shipment selection loop (server file lines
249–258): first shipment whose direct id list or embedded line-item
objects mention the line-item id, compared as strings. -/
def repSelect (liId : JVal) : List JVal → Except String (Option JVal)
  | [] => pure none
  | s :: rest => do
    let li0 ← s.getE "line_item_ids"
    let ids ← mapStringE (jsOr li0 (.arr []))
    let sLineItems ← lineItemIdStrs (jsOr (s.getF "line_items") (.arr []))
    if ids.contains liId.toStr || sLineItems.contains liId.toStr then pure (some s)
    else repSelect liId rest

/-- One detailed-mode output row for an (order, line item) pair (the
`line_items.forEach` body, server file lines 244–358).  Effects follow
source order: `li.id`, tracking resolution, representative selection,
the conditional `order.shipping_total` / `order.shipping_method`
accesses, the unconditional `order.placed_at` access, the two
formatters, then the two address blobs.  The `billingSrc`/`shippingSrc`
locals and the `debugInfo` capture (lines 272–299) only feed the debug
payload and cannot throw once `order.placed_at` has been read, so they
are elided.  Non-array `shipments` values throw here; the enrichment
worker only ever supplies arrays (string iterability is not modelled). -/
def buildDetailedRow (order li shipments : JVal) : Except String (List JVal) := do
  let liId ← li.getE "id"
  let tracking ← trackingForLineItem (.obj [("order", order), ("shipments", shipments)]) liId
  let xs ←
    match shipments with
    | .arr ys => pure ys
    | _ => Except.error "TypeError: shipments is not iterable"
  let rep0 ← repSelect liId xs
  let repA := rep0.getD JVal.null
  let representative := if !repA.truthy && xs.length != 0 then (JVal.arr xs).idx0 else repA
  let shippingLanded ← jsOrE
    (pure (jsAnd representative
      (jsOr (representative.getF "landed_cost") (representative.getF "shipping_cost"))))
    (jsOrE (order.getE "shipping_total") (pure (.str "")))
  let shipMethod ← jsOrE
    (jsAndE representative
      (jsOrE (pure (representative.getF "shipping_method")) (order.getE "shipping_method")))
    (pure (.str ""))
  let shipDate := jsOr (jsAnd representative
    (jsOr (representative.getF "ship_date") (representative.getF "shipped_at"))) (.str "")
  let pl ← order.getE "placed_at"
  let placed := jsOr pl (jsOr (order.getF "created_at") (.str ""))
  let productPersonalization ← formatProductPersonalization
    (jsOr (li.getF "product_personalizations")
      (jsOr (li.getF "personalizations")
        (jsOr (li.getF "personalization") (li.getF "product_personalization"))))
  let quantity := jsOr (li.getF "quantity") (.str "")
  let productName := jsOr (li.getF "name") (jsOr (li.getF "product_name") (.str ""))
  let productOptions ← formatProductOptions
    (jsOr (li.getF "options_text") (jsOr (li.getF "product_options") (li.getF "options")))
  let billingMerged := JVal.obj (assignPairs
    (assignPairs (assignPairs [] (ownPairs (jsOr (order.getF "billing") (.obj []))))
      (ownPairs (jsOr (order.getF "billing_address") (.obj []))))
    (ownPairs (jsOr (order.getF "billing_contact") (.obj []))))
  let shippingMerged := JVal.obj (assignPairs
    (assignPairs (assignPairs [] (ownPairs (jsOr (order.getF "shipping") (.obj []))))
      (ownPairs (jsOr (order.getF "shipping_address") (.obj []))))
    (ownPairs (jsOr (order.getF "shipping_contact") (.obj []))))
  let billingInfo ← composeAddressBlob billingMerged order
    (.obj [("order", order), ("role", .str "billing")])
  let shippingInfo ← composeAddressBlob shippingMerged order
    (.obj [("shipment", representative), ("shipments", shipments), ("role", .str "shipping")])
  let billingFirst := pick billingMerged ["first_name", "first", "firstName", "firstname"]
  let billingLast := pick billingMerged ["last_name", "last", "lastName", "lastname"]
  let billingName : JVal :=
    if (jsOr billingFirst billingLast).truthy then
      .str (strTrim ((jsOr billingFirst (.str "")).toStr ++ " " ++ (jsOr billingLast (.str "")).toStr))
    else jsOr (pick order ["customer_name", "customer", "username"]) (.str "")
  let billingCompany := pick billingMerged ["company", "business", "org"]
  let billingAddress1 := pick billingMerged ["first_address", "address1", "firstAddress", "address", "street1"]
  let billingAddress2 := pick billingMerged ["second_address", "address2", "secondAddress", "address_line_2", "street2"]
  let billingCity := pick billingMerged ["city", "town"]
  let billingState := pick billingMerged ["state", "province", "region"]
  let billingZip := pick billingMerged ["zip", "postcode", "postal_code"]
  let billingCountry := pick billingMerged ["country", "country_name"]
  let billingEmail := jsOr (pick billingMerged ["email", "contact_email"])
    (pick order ["customer_email", "customer"])
  let billingPhone := jsOr (pick billingMerged ["phone", "telephone", "contact_phone"])
    (pick order ["customer_phone"])
  let shippingFirst := pick shippingMerged ["first_name", "first", "firstName", "firstname"]
  let shippingLast := pick shippingMerged ["last_name", "last", "lastName", "lastname"]
  let shippingName : JVal :=
    if (jsOr shippingFirst shippingLast).truthy then
      .str (strTrim ((jsOr shippingFirst (.str "")).toStr ++ " " ++ (jsOr shippingLast (.str "")).toStr))
    else jsOr (pick order ["customer_name", "customer", "username"]) (.str "")
  let shippingCompany := pick shippingMerged ["company", "business", "org"]
  let shippingAddress1 := pick shippingMerged ["first_address", "address1", "firstAddress", "address", "street1"]
  let shippingAddress2 := pick shippingMerged ["second_address", "address2", "secondAddress", "address_line_2", "street2"]
  let shippingCity := pick shippingMerged ["city", "town"]
  let shippingState := pick shippingMerged ["state", "province", "region"]
  let shippingZip := pick shippingMerged ["zip", "postcode", "postal_code"]
  let shippingCountry := pick shippingMerged ["country", "country_name"]
  let shippingEmail := jsOr (pick shippingMerged ["email", "contact_email"])
    (pick order ["customer_email", "customer"])
  let shippingPhone := jsOr (pick shippingMerged ["phone", "telephone", "contact_phone"])
    (pick order ["customer_phone"])
  pure [
    .str (jsOr (order.getF "order_id") (jsOr (order.getF "id") (.str ""))).toStr,
    placed,
    jsOr (order.getF "status") (.str ""),
    .str (jsOr (li.getF "id") (.str "")).toStr,
    .str tracking,
    shippingLanded,
    shipMethod,
    shipDate,
    .str productPersonalization,
    .str quantity.toStr,
    productName,
    .str productOptions,
    .str billingInfo,
    .str shippingInfo,
    billingName, billingCompany, billingAddress1, billingAddress2, billingCity,
    billingState, billingZip, billingCountry, billingEmail, billingPhone,
    shippingName, shippingCompany, shippingAddress1, shippingAddress2, shippingCity,
    shippingState, shippingZip, shippingCountry, shippingEmail, shippingPhone]

/-- Rows contributed by one enrichment slot (the outer `enriched.forEach`
of server file lines 242–360): the destructuring defaults replace an
absent `line_items` / `shipments` with `[]`, so an error-marker slot
contributes no rows. -/
def rowsForSlot (slot : JVal) : Except String (List (List JVal)) := do
  let order ← slot.getE "order"
  let li0 ← slot.getE "line_items"
  let lineItems := jsDefault li0 (.arr [])
  let sh0 ← slot.getE "shipments"
  let shipments := jsDefault sh0 (.arr [])
  match lineItems with
  | .arr lis => lis.mapM (fun li => buildDetailedRow order li shipments)
  | _ => Except.error "TypeError: line_items.forEach is not a function"

/-- All detailed-mode rows for a list of enrichment slots, in slot
order. -/
def rowsDetailed (enriched : List JVal) : Except String (List (List JVal)) := do
  let rss ← enriched.mapM rowsForSlot
  pure rss.flatten

/-- One summary-mode output row (the non-detailed branch, server file
lines 363–389). -/
def buildSummaryRow (order : JVal) : Except String (List JVal) := do
  let b0 ← order.getE "billing"
  let bArg := jsOr b0 (jsOr (order.getF "billing_address") (.obj []))
  let billingInfo ← composeAddressBlob bArg order .undef
  let sArg := jsOr (order.getF "shipping") (jsOr (order.getF "shipping_address") (.obj []))
  let shippingInfo ← composeAddressBlob sArg order .undef
  let billingMerged := JVal.obj (assignPairs
    (assignPairs (assignPairs [] (ownPairs (jsOr (order.getF "billing") (.obj []))))
      (ownPairs (jsOr (order.getF "billing_address") (.obj []))))
    (ownPairs (jsOr (order.getF "billing_contact") (.obj []))))
  let shippingMerged := JVal.obj (assignPairs
    (assignPairs (assignPairs [] (ownPairs (jsOr (order.getF "shipping") (.obj []))))
      (ownPairs (jsOr (order.getF "shipping_address") (.obj []))))
    (ownPairs (jsOr (order.getF "shipping_contact") (.obj []))))
  let billingName := jsOr (pick billingMerged ["first_name", "first"])
    (jsOr (pick order ["customer", "username"]) (.str ""))
  let shippingName := jsOr (pick shippingMerged ["first_name", "first"])
    (jsOr (pick order ["customer", "username"]) (.str ""))
  let structured : List JVal := [billingName,
    .str "", .str "", .str "", .str "", .str "", .str "", .str "",
    jsOr (pick billingMerged ["email", "contact_email"]) (pick order ["customer_email", "customer"]),
    .str "",
    shippingName,
    .str "", .str "", .str "", .str "", .str "", .str "", .str "",
    jsOr (pick shippingMerged ["email", "contact_email"]) (pick order ["customer_email", "customer"]),
    .str ""]
  pure ([
    .str (jsOr (order.getF "order_id") (jsOr (order.getF "id") (.str ""))).toStr,
    jsOr (order.getF "placed_at") (jsOr (order.getF "created_at") (.str "")),
    jsOr (order.getF "status") (.str ""),
    .str "",
    .str "",
    jsOr (order.getF "shipping_total") (.str ""),
    jsOr (order.getF "shipping_method") (.str ""),
    .str "", .str "", .str "", .str "", .str "",
    .str billingInfo,
    .str shippingInfo] ++ structured)

/-! ### Specification-side definitions

The following definitions are written from the words of the spec and of
claim C1 (not from the source); they exist to be compared with the code
model above. -/

/-- A primitive JavaScript value, for which `Set` membership
(`SameValueZero`) coincides with structural equality. -/
def isPrim : JVal → Bool
  | .arr _ => false
  | .obj _ => false
  | _ => true

/-- The tracking value of a shipment as both the spec and the source
read it: `tracking_number`, else `tracking`, else `''`. -/
def shipmentTracking (s : JVal) : JVal :=
  jsOr (s.getF "tracking_number") (jsOr (s.getF "tracking") (.str ""))

/-- Spec wording: the shipment's line-item id list (direct id array or
embedded line-item objects, ids compared as strings) contains the given
line-item id. -/
def shipmentMatches (liId s : JVal) : Bool :=
  (match s.getF "line_item_ids" with
   | .arr xs => (xs.map toStr).contains liId.toStr
   | _ => false)
  || (match s.getF "line_items" with
      | .arr xs => (xs.map (fun (x : JVal) => (jsOr (x.getF "id") x).toStr)).contains liId.toStr
      | _ => false)

/-- Spec wording: the non-empty tracking values of the shipments that
reference the line item, in shipment order. -/
def claimMatched (liId : JVal) (shipments : List JVal) : List JVal :=
  shipments.filterMap (fun s =>
    let t := shipmentTracking s
    if t.truthy && shipmentMatches liId s then some t else none)

/-- Spec wording: all non-empty tracking values across all shipments. -/
def claimAll (shipments : List JVal) : List JVal :=
  (shipments.map shipmentTracking).filter (fun t => t.truthy)

/-- Spec wording: deduplicate keeping first-seen order and join with
`"; "`. -/
def dedupJoin (ts : List JVal) : String := jsJoin (dedupKeepFirst ts) "; "

/-- Tracking resolution as claim C1 must be amended: the order-level
fallback applies whenever no referencing shipment contributed a
non-empty tracking value. -/
def trackingSpec (shipments : List JVal) (liId : JVal) : String :=
  if shipments.length = 0 then ""
  else if (claimMatched liId shipments).length ≠ 0 then dedupJoin (claimMatched liId shipments)
  else dedupJoin (claimAll shipments)

/-- Tracking resolution exactly as claim C1 states it: the order-level
fallback applies only when no shipment references the line item at
all. -/
def trackingClaimC1 (shipments : List JVal) (liId : JVal) : String :=
  if shipments.length = 0 then ""
  else if (shipments.filter (fun s => shipmentMatches liId s)).length ≠ 0 then
    dedupJoin (claimMatched liId shipments)
  else dedupJoin (claimAll shipments)

/-- Shape conditions under which `trackingForLineItem` cannot throw and
its `Set` deduplication is faithfully structural: shipment entries are
not `null`/`undefined`, their id fields are absent-or-arrays with
non-nullish elements, and their tracking fields are primitives. -/
def shipmentWF (s : JVal) : Bool :=
  !s.nullish
  && (!(s.getF "line_item_ids").truthy || (s.getF "line_item_ids").isArray)
  && (match s.getF "line_items" with
      | .arr xs => xs.all (fun x => !x.nullish)
      | v => !v.truthy)
  && isPrim (s.getF "tracking_number") && isPrim (s.getF "tracking")

/-! ### Generic lemmas about the `Except` embedding -/

theorem exc_bind_ok {α β : Type} (x : Except String α) (f : α → Except String β)
    (b : β) : (x >>= f) = .ok b ↔ ∃ a, x = .ok a ∧ f a = .ok b := by
  cases x <;> simp [Bind.bind, Except.bind]

theorem mapM_ok_of {α β : Type} (f : α → Except String β) (g : α → β) :
    ∀ xs : List α, (∀ x ∈ xs, f x = .ok (g x)) → xs.mapM f = .ok (xs.map g) := by
  intro xs
  induction xs with
  | nil => intro h; rfl
  | cons x xs ih =>
    intro h
    rw [List.mapM_cons, h x (by simp), ih (fun a ha => h a (by simp [ha]))]
    rfl

theorem mapM_exists {α β : Type} (f : α → Except String β) :
    ∀ xs : List α, (∀ x ∈ xs, ∃ y, f x = .ok y) → ∃ ys, xs.mapM f = .ok ys := by
  intro xs
  induction xs with
  | nil => intro h; exact ⟨[], rfl⟩
  | cons x xs ih =>
    intro h
    obtain ⟨y, hy⟩ := h x (by simp)
    obtain ⟨ys, hys⟩ := ih (fun a ha => h a (by simp [ha]))
    refine ⟨y :: ys, ?_⟩
    rw [List.mapM_cons, hy, hys]
    rfl

theorem foldlM_ok_of {α β : Type} (f : β → α → Except String β) (g : β → α → β) :
    ∀ (xs : List α), (∀ x ∈ xs, ∀ acc, f acc x = .ok (g acc x)) →
      ∀ init, xs.foldlM f init = .ok (xs.foldl g init) := by
  intro xs
  induction xs with
  | nil => intro h init; rfl
  | cons x xs ih =>
    intro h init
    rw [List.foldlM_cons, h x (by simp), List.foldl_cons]
    exact ih (fun a ha => h a (by simp [ha])) (g init x)

/-! ### Basic facts about the value model -/

theorem truthy_not_nullish (v : JVal) (h : v.truthy = true) : v.nullish = false := by
  cases v <;> simp_all [JVal.truthy, JVal.nullish]

theorem getE_ok (v : JVal) (k : String) (h : v.nullish = false) :
    v.getE k = .ok (v.getF k) := by
  simp [JVal.getE, h]

/-! ### Tracking resolution agrees with its specification -/

/-- Pure counterpart of one `trackingStep` on a well-formed shipment. -/
def trackStepT (liId : JVal) (found : List JVal) (s : JVal) : List JVal :=
  if (shipmentTracking s).truthy && shipmentMatches liId s then
    insertIfAbsent found (shipmentTracking s)
  else found

theorem ok_bind {α β : Type} (a : α) (f : α → Except String β) :
    (Except.ok a >>= f : Except String β) = f a := rfl

theorem jsOr_truthy (a b : JVal) (h : a.truthy = true) : jsOr a b = a := by
  simp [jsOr, h]

theorem jsOr_falsy (a b : JVal) (h : a.truthy = false) : jsOr a b = b := by
  simp [jsOr, h]

theorem mapStringE_jsOr (v : JVal) (h : (!v.truthy || v.isArray) = true) :
    mapStringE (jsOr v (.arr []))
      = .ok ((match v with | .arr xs => xs | _ => ([] : List JVal)).map JVal.toStr) := by
  cases v with
  | arr xs => rw [jsOr_truthy _ _ (by simp [JVal.truthy])]; rfl
  | undef => rw [jsOr_falsy _ _ (by simp [JVal.truthy])]; rfl
  | null => rw [jsOr_falsy _ _ (by simp [JVal.truthy])]; rfl
  | obj fs => simp [JVal.truthy, JVal.isArray] at h
  | bool b =>
    have hb : b = false := by simpa [JVal.truthy, JVal.isArray] using h
    subst hb
    rw [jsOr_falsy _ _ (by simp [JVal.truthy])]; rfl
  | num n =>
    have hn : n = 0 := by simpa [JVal.truthy, JVal.isArray] using h
    subst hn
    rw [jsOr_falsy _ _ (by simp [JVal.truthy])]; rfl
  | str t =>
    have hts : t = "" := by simpa [JVal.truthy, JVal.isArray] using h
    subst hts
    rw [jsOr_falsy _ _ (by simp [JVal.truthy])]; rfl

theorem lineItemIdStrs_jsOr (v : JVal)
    (h : (match v with
      | JVal.arr xs => xs.all (fun x => !x.nullish)
      | w => !w.truthy) = true) :
    lineItemIdStrs (jsOr v (.arr []))
      = .ok ((match v with | .arr xs => xs | _ => ([] : List JVal)).map
          (fun (x : JVal) => (jsOr (x.getF "id") x).toStr)) := by
  cases v with
  | arr xs =>
    rw [jsOr_truthy _ _ (by simp [JVal.truthy])]
    simp only at h
    unfold lineItemIdStrs
    apply mapM_ok_of
    intro x hx
    have hxn : x.nullish = false := by
      have := (List.all_eq_true.mp h) x hx
      simpa using this
    rw [getE_ok x _ hxn]
    rfl
  | undef => rw [jsOr_falsy _ _ (by simp [JVal.truthy])]; rfl
  | null => rw [jsOr_falsy _ _ (by simp [JVal.truthy])]; rfl
  | obj fs => simp [JVal.truthy] at h
  | bool b =>
    have hb : b = false := by simpa [JVal.truthy] using h
    subst hb
    rw [jsOr_falsy _ _ (by simp [JVal.truthy])]; rfl
  | num n =>
    have hn : n = 0 := by simpa [JVal.truthy] using h
    subst hn
    rw [jsOr_falsy _ _ (by simp [JVal.truthy])]; rfl
  | str t =>
    have hts : t = "" := by simpa [JVal.truthy] using h
    subst hts
    rw [jsOr_falsy _ _ (by simp [JVal.truthy])]; rfl

theorem contains_match_ids (v : JVal) (q : String) :
    ((match v with | JVal.arr xs => xs | _ => ([] : List JVal)).map JVal.toStr).contains q
      = (match v with
        | JVal.arr xs => (xs.map JVal.toStr).contains q
        | _ => false) := by
  cases v <;> simp

theorem contains_match_lis (v : JVal) (q : String) :
    ((match v with | JVal.arr xs => xs | _ => ([] : List JVal)).map
        (fun (x : JVal) => (jsOr (x.getF "id") x).toStr)).contains q
      = (match v with
        | JVal.arr xs => (xs.map (fun (x : JVal) => (jsOr (x.getF "id") x).toStr)).contains q
        | _ => false) := by
  cases v <;> simp

theorem trackingStep_ok (liId s : JVal) (h : shipmentWF s = true) (found : List JVal) :
    trackingStep liId found s = .ok (trackStepT liId found s) := by
  simp only [shipmentWF, Bool.and_eq_true] at h
  obtain ⟨⟨⟨⟨hns, hids⟩, hlis⟩, hp1⟩, hp2⟩ := h
  have hns' : s.nullish = false := by simpa using hns
  unfold trackingStep
  rw [getE_ok s _ hns']
  simp only [ok_bind]
  show (if !(shipmentTracking s).truthy then (pure found : Except String (List JVal))
    else _) = _
  by_cases ht : (shipmentTracking s).truthy
  · rw [ht]
    simp only [Bool.not_true, Bool.false_eq_true, if_false]
    rw [mapStringE_jsOr _ hids]
    simp only [ok_bind]
    rw [lineItemIdStrs_jsOr _ hlis]
    simp only [ok_bind]
    rw [contains_match_ids, contains_match_lis]
    unfold trackStepT
    rw [show shipmentMatches liId s
      = ((match s.getF "line_item_ids" with
          | JVal.arr xs => (xs.map JVal.toStr).contains liId.toStr
          | _ => false)
        || (match s.getF "line_items" with
          | JVal.arr xs => (xs.map (fun (x : JVal) => (jsOr (x.getF "id") x).toStr)).contains liId.toStr
          | _ => false)) from rfl]
    rw [ht]
    simp only [Bool.true_and]
    split <;> rfl
  · have htb : (shipmentTracking s).truthy = false := by simpa using ht
    rw [htb]
    simp only [Bool.not_false, if_true]
    unfold trackStepT
    rw [htb]
    simp only [Bool.false_and, Bool.false_eq_true, if_false]
    rfl

theorem foldl_trackStepT (liId : JVal) :
    ∀ (xs : List JVal) (acc : List JVal),
      xs.foldl (trackStepT liId) acc = (claimMatched liId xs).foldl insertIfAbsent acc := by
  intro xs
  induction xs with
  | nil => intro acc; rfl
  | cons s rest ih =>
    intro acc
    rw [List.foldl_cons, ih]
    unfold claimMatched
    rw [List.filterMap_cons]
    by_cases hc : ((shipmentTracking s).truthy && shipmentMatches liId s) = true
    · rw [if_pos hc, List.foldl_cons]
      show (claimMatched liId rest).foldl insertIfAbsent (trackStepT liId acc s) = _
      unfold trackStepT
      rw [if_pos hc]
      rfl
    · rw [if_neg hc]
      show (claimMatched liId rest).foldl insertIfAbsent (trackStepT liId acc s) = _
      unfold trackStepT
      rw [if_neg hc]
      rfl

theorem insertIfAbsent_length {α : Type} [BEq α] (acc : List α) (x : α) :
    acc.length ≤ (insertIfAbsent acc x).length := by
  unfold insertIfAbsent
  split <;> simp

theorem foldl_insertIfAbsent_length {α : Type} [BEq α] :
    ∀ (ts acc : List α), acc.length ≤ (ts.foldl insertIfAbsent acc).length := by
  intro ts
  induction ts with
  | nil => simp
  | cons t rest ih =>
    intro acc
    calc acc.length ≤ (insertIfAbsent acc t).length := insertIfAbsent_length acc t
      _ ≤ _ := by rw [List.foldl_cons]; exact ih _

theorem dedupKeepFirst_nil_iff {α : Type} [BEq α] (ts : List α) :
    dedupKeepFirst ts = [] ↔ ts = [] := by
  cases ts with
  | nil => simp [dedupKeepFirst]
  | cons t rest =>
    simp only [dedupKeepFirst, List.foldl_cons]
    constructor
    · intro h
      have h1 : (insertIfAbsent ([] : List α) t).length
          ≤ (rest.foldl insertIfAbsent (insertIfAbsent [] t)).length :=
        foldl_insertIfAbsent_length rest _
      rw [h] at h1
      simp [insertIfAbsent] at h1
    · intro h
      simp at h

theorem trackingCore_eq (liId : JVal) (xs : List JVal)
    (h : ∀ s ∈ xs, shipmentWF s = true) :
    trackingCore liId xs
      = .ok (if (claimMatched liId xs).length ≠ 0 then dedupJoin (claimMatched liId xs)
          else dedupJoin (claimAll xs)) := by
  unfold trackingCore
  rw [foldlM_ok_of (trackingStep liId) (trackStepT liId) xs
    (fun x hx acc => trackingStep_ok liId x (h x hx) acc) []]
  simp only [ok_bind]
  rw [foldl_trackStepT]
  rw [show (claimMatched liId xs).foldl insertIfAbsent []
    = dedupKeepFirst (claimMatched liId xs) from rfl]
  by_cases hm : claimMatched liId xs = []
  · have hfound : dedupKeepFirst (claimMatched liId xs) = [] := by rw [hm]; rfl
    rw [hfound]
    simp only [List.length_nil, gt_iff_lt, Nat.lt_irrefl, if_false]
    have hmap : xs.mapM (fun s => do
        let tn ← s.getE "tracking_number"
        pure (jsOr tn (jsOr (s.getF "tracking") (.str ""))) : JVal → Except String JVal)
        = .ok (xs.map shipmentTracking) := by
      apply mapM_ok_of
      intro x hx
      have hxn : x.nullish = false := by
        have := h x hx
        simp only [shipmentWF, Bool.and_eq_true] at this
        simpa using this.1.1.1.1
      rw [getE_ok x _ hxn]
      rfl
    rw [hmap]
    simp only [ok_bind]
    rw [show (xs.map shipmentTracking).filter (fun v => v.truthy) = claimAll xs from rfl]
    rw [if_neg (show ¬((claimMatched liId xs).length ≠ 0) by simp [hm])]
    by_cases ha : (claimAll xs).length > 0
    · rw [if_pos ha]
      rfl
    · rw [if_neg ha]
      have hnil : claimAll xs = [] := by
        cases hc : claimAll xs with
        | nil => rfl
        | cons a b => rw [hc] at ha; simp at ha
      rw [hnil]
      rfl
  · have hlen : 0 < (dedupKeepFirst (claimMatched liId xs)).length := by
      cases hc : claimMatched liId xs with
      | nil => exact absurd hc hm
      | cons a b =>
        by_contra hle
        push_neg at hle
        have h0 : dedupKeepFirst (a :: b) = [] := by
          cases hd : dedupKeepFirst (a :: b) with
          | nil => rfl
          | cons c d => rw [hd] at hle; simp at hle
        rw [dedupKeepFirst_nil_iff] at h0
        exact List.noConfusion h0
    rw [if_pos hlen, if_pos (show (claimMatched liId xs).length ≠ 0 by simp [hm])]
    rfl

/-- Central equivalence: on well-formed shipment lists the code's
tracking resolution computes the amended specification value. -/
theorem trackingForLineItem_eq_spec (order liId : JVal) (shipments : List JVal)
    (h : ∀ s ∈ shipments, shipmentWF s = true) :
    trackingForLineItem (.obj [("order", order), ("shipments", .arr shipments)]) liId
      = .ok (trackingSpec shipments liId) := by
  cases shipments with
  | nil => rfl
  | cons s0 srest =>
    show trackingCore liId (s0 :: srest) = .ok (trackingSpec (s0 :: srest) liId)
    rw [trackingCore_eq liId (s0 :: srest) h]
    unfold trackingSpec
    rw [if_neg (show ¬((s0 :: srest).length = 0) by simp)]

/-- The empty-or-absent shipments cases resolve to the empty string. -/
theorem trackingForLineItem_absent (order liId : JVal) :
    trackingForLineItem (.obj [("order", order)]) liId = .ok ""
      ∧ trackingForLineItem (.obj [("order", order), ("shipments", .arr [])]) liId = .ok "" := by
  constructor <;> rfl

/-! ### Claim C1 -/

/-- C1 (amended): on well-formed shipments, tracking resolution returns
the `"; "`-joined, first-seen-order deduplicated set of non-empty
tracking numbers of the shipments whose line-item id list contains the
line-item id; when no referencing shipment contributes a non-empty
tracking number (in particular when no shipment references the line
item), it returns the deduplicated union of all non-empty tracking
numbers of the order's shipments; and it returns the empty string when
the shipment list is empty or absent. -/
theorem C1_tracking_resolution_amended :
    (∀ (order liId : JVal) (shipments : List JVal),
      (∀ s ∈ shipments, shipmentWF s = true) →
      trackingForLineItem (.obj [("order", order), ("shipments", .arr shipments)]) liId
        = .ok (trackingSpec shipments liId))
    ∧ (∀ order liId : JVal,
      trackingForLineItem (.obj [("order", order)]) liId = .ok "") :=
  ⟨trackingForLineItem_eq_spec, fun _ _ => rfl⟩

/-- C1 counterexample: the first shipment references line item 1 with an
empty tracking number and the second does not reference it; the claim
as stated demands the empty string (a shipment does reference the line
item), but the code returns the second shipment's tracking number via
the order-level fallback. -/
theorem C1_counterexample :
    trackingForLineItem (.obj [("order", .obj []), ("shipments", .arr [
        .obj [("tracking_number", .str ""), ("line_item_ids", .arr [.num 1])],
        .obj [("tracking_number", .str "T")]])]) (.num 1) = .ok "T"
    ∧ trackingClaimC1 [
        .obj [("tracking_number", .str ""), ("line_item_ids", .arr [.num 1])],
        .obj [("tracking_number", .str "T")]] (.num 1) = ""
    ∧ ("T" : String) ≠ "" :=
  ⟨by with_unfolding_all rfl, by with_unfolding_all rfl, by decide⟩

/-- Witness for C1 on a concrete well-formed shipment list. -/
theorem C1_witness :
    trackingForLineItem (.obj [("order", .obj []), ("shipments", .arr
        [.obj [("tracking_number", .str "A"), ("line_item_ids", .arr [.num 1])]])]) (.num 1)
      = .ok (trackingSpec [.obj [("tracking_number", .str "A"), ("line_item_ids", .arr [.num 1])]] (.num 1))
    ∧ trackingSpec [.obj [("tracking_number", .str "A"), ("line_item_ids", .arr [.num 1])]] (.num 1) = "A" :=
  ⟨C1_tracking_resolution_amended.1 (.obj []) (.num 1) _ (by decide), by with_unfolding_all rfl⟩

/-! ### Claim C9 -/

/-- C9: the alias-resolution primitives (`get` of `composeAddressBlob`
and `pick` of the run handler) treat a key whose value is `null`,
`undefined`, or a blank string as absent and fall through to the next
alias; resolving `(city, town)` over a record with a whitespace-only
`city` yields the `town` value. -/
theorem C9_alias_blank_skip :
    (∀ (obj : JVal) (k : String) (rest : List String),
      (obj.getF k = .null ∨ obj.getF k = .undef ∨
        (∃ s, obj.getF k = .str s ∧ strTrim s = "")) →
      get obj (k :: rest) = get obj rest ∧ pick obj (k :: rest) = pick obj rest)
    ∧ get (.obj [("city", .str "  "), ("town", .str "B")]) ["city", "town"] = .str "B"
    ∧ pick (.obj [("city", .str "  "), ("town", .str "B")]) ["city", "town"] = .str "B" := by
  refine ⟨?_, by with_unfolding_all rfl, by with_unfolding_all rfl⟩
  intro obj k rest h
  constructor
  · show (if !obj.truthy then get obj rest
      else if !(obj.getF k).nullish && strTrim (obj.getF k).toStr != "" then obj.getF k
      else get obj rest) = get obj rest
    by_cases ho : obj.truthy
    · rcases h with hv | hv | ⟨s, hv, hst⟩
      · simp [ho, hv, JVal.nullish]
      · simp [ho, hv, JVal.nullish]
      · simp [ho, hv, JVal.nullish, JVal.toStr, hst]
    · simp [Bool.not_eq_true] at ho
      simp [ho]
  · show (if !obj.truthy then pick obj rest
      else if !(obj.getF k).nullish && strTrim (obj.getF k).toStr != "" then obj.getF k
      else pick obj rest) = pick obj rest
    by_cases ho : obj.truthy
    · rcases h with hv | hv | ⟨s, hv, hst⟩
      · simp [ho, hv, JVal.nullish]
      · simp [ho, hv, JVal.nullish]
      · simp [ho, hv, JVal.nullish, JVal.toStr, hst]
    · simp [Bool.not_eq_true] at ho
      simp [ho]

/-- Witness for C9 at a concrete record with a whitespace-only alias. -/
theorem C9_witness :
    get (.obj [("city", .str " "), ("town", .str "X")]) ["city", "town"]
        = get (.obj [("city", .str " "), ("town", .str "X")]) ["town"]
    ∧ pick (.obj [("city", .str " "), ("town", .str "X")]) ["city", "town"]
        = pick (.obj [("city", .str " "), ("town", .str "X")]) ["town"] :=
  C9_alias_blank_skip.1 (.obj [("city", .str " "), ("town", .str "X")]) "city" ["town"]
    (Or.inr (Or.inr ⟨" ", by with_unfolding_all rfl, by with_unfolding_all rfl⟩))

/-! ### Claim C10 -/

/-- C10: a slot holding an error marker, or an order with an empty
line-item list, contributes zero detailed-mode rows; concretely, a
one-order batch whose enrichment worker throws produces an empty row
set while the meta order count is 1. -/
theorem C10_error_slots_silent :
    (∀ m : String, rowsForSlot (.obj [("error", .str m)]) = .ok [])
    ∧ (∀ order shipments : JVal,
        rowsForSlot (.obj [("order", order), ("line_items", .arr []),
          ("shipments", shipments)]) = .ok [])
    ∧ rowsDetailed (promisePool [.obj [("id", .num 1)]] (fun _ _ => .error "boom")) = .ok []
    ∧ [JVal.obj [("id", .num 1)]].length = 1 :=
  ⟨fun _ => rfl, fun _ _ => rfl, rfl, rfl⟩

/-! ### Claim C4 -/

theorem promisePoolAux_length (worker : JVal → Nat → Except String JVal) :
    ∀ (items : List JVal) (base : Nat),
      (promisePoolAux worker items base).length = items.length := by
  intro items
  induction items with
  | nil => intro base; rfl
  | cons x xs ih => intro base; simp [promisePoolAux, ih]

theorem promisePoolAux_get (worker : JVal → Nat → Except String JVal) :
    ∀ (items : List JVal) (base i : Nat),
      (promisePoolAux worker items base)[i]?
        = (items[i]?).map (fun x => poolSlot worker x (base + i)) := by
  intro items
  induction items with
  | nil => intro base i; rfl
  | cons x xs ih =>
    intro base i
    cases i with
    | zero => simp [promisePoolAux]
    | succ n =>
      simp only [promisePoolAux, List.getElem?_cons_succ,
        ih (base + 1) n, show base + 1 + n = base + (n + 1) from by omega]

/-- C4: in the worker pool, a slot whose worker throws holds the
`{ error }` marker while every slot whose worker succeeds holds the
worker's value; one order's failure never disturbs the other slots or
the batch length. -/
theorem C4_pool_isolation (items : List JVal) (worker : JVal → Nat → Except String JVal)
    (j : Nat) (xj : JVal) (e : String)
    (hj : items[j]? = some xj) (hw : worker xj j = .error e) :
    (promisePool items worker).length = items.length
    ∧ (promisePool items worker)[j]? = some (.obj [("error", .str e)])
    ∧ (∀ i xi v, items[i]? = some xi → worker xi i = .ok v →
        (promisePool items worker)[i]? = some v) := by
  refine ⟨promisePoolAux_length worker items 0, ?_, ?_⟩
  · rw [promisePool, promisePoolAux_get, hj]
    simp [poolSlot, hw]
  · intro i xi v hi hv
    rw [promisePool, promisePoolAux_get, hi]
    simp [poolSlot, hv]

/-- The worker used by the C4 witness: fails exactly at index 1. -/
def c4worker : JVal → Nat → Except String JVal :=
  fun x i => if i = 1 then .error "boom" else .ok x

/-- Witness for C4: three orders, the middle worker throws, the other
two slots carry their values. -/
theorem C4_witness :
    (promisePool [JVal.num 10, JVal.num 20, JVal.num 30] c4worker).length = 3
    ∧ (promisePool [JVal.num 10, JVal.num 20, JVal.num 30] c4worker)[1]?
        = some (.obj [("error", .str "boom")])
    ∧ (∀ i xi v, [JVal.num 10, JVal.num 20, JVal.num 30][i]? = some xi →
        c4worker xi i = .ok v →
        (promisePool [JVal.num 10, JVal.num 20, JVal.num 30] c4worker)[i]? = some v) := by
  have h := C4_pool_isolation [JVal.num 10, JVal.num 20, JVal.num 30] c4worker 1
    (.num 20) "boom" rfl rfl
  exact ⟨h.1, h.2.1, h.2.2⟩

/-! ### Claim C5 -/

theorem lookup_cons_ite (a : String) (b : JVal) (l : List (String × JVal)) (k : String) :
    ((a, b) :: l).lookup k = if k = a then some b else l.lookup k := by
  rcases eq_or_ne k a with he | he
  · subst he; simp
  · rw [List.lookup_cons, show (k == a) = false from beq_eq_false_iff_ne.mpr he, if_neg he]

theorem lookup_append (l1 l2 : List (String × JVal)) (k : String) :
    (l1 ++ l2).lookup k
      = (match l1.lookup k with
        | some v => some v
        | none => l2.lookup k) := by
  induction l1 with
  | nil => simp [List.lookup]
  | cons p l1 ih =>
    obtain ⟨a, b⟩ := p
    rw [List.cons_append, lookup_cons_ite, lookup_cons_ite]
    by_cases hk : k = a
    · rw [if_pos hk, if_pos hk]
    · rw [if_neg hk, if_neg hk, ih]

theorem lookup_map_set (fs : List (String × JVal)) (k k' : String) (v : JVal) :
    (fs.map (fun p => if p.1 = k then (k, v) else p)).lookup k'
      = if k' = k then (if (fs.lookup k).isSome then some v else none)
        else fs.lookup k' := by
  induction fs with
  | nil => by_cases hk : k' = k <;> simp [List.lookup, hk]
  | cons p fs ih =>
    obtain ⟨a, b⟩ := p
    by_cases hak : a = k
    · subst hak
      rw [List.map_cons]
      rw [show (if (a, b).1 = a then ((a : String), v) else (a, b)) = (a, v) from by simp]
      by_cases hk : k' = a
      · subst hk
        simp [lookup_cons_ite]
      · simp [lookup_cons_ite, hk, ih]
    · rw [List.map_cons]
      rw [show (if (a, b).1 = k then ((k : String), v) else (a, b)) = (a, b) from by simp [hak]]
      have hak2 : k ≠ a := Ne.symm hak
      by_cases hka : k' = a
      · have hkk : k' ≠ k := fun h => hak (hka ▸ h)
        rw [lookup_cons_ite a b (List.map (fun p => if p.1 = k then (k, v) else p) fs) k',
          if_pos hka, if_neg hkk, lookup_cons_ite a b fs k', if_pos hka]
      · rw [lookup_cons_ite a b (List.map (fun p => if p.1 = k then (k, v) else p) fs) k',
          if_neg hka, ih, lookup_cons_ite a b fs k, if_neg hak2,
          lookup_cons_ite a b fs k', if_neg hka]

theorem setKey_lookup (fs : List (String × JVal)) (k : String) (v : JVal) (k' : String) :
    (setKey fs k v).lookup k' = if k' = k then some v else fs.lookup k' := by
  unfold setKey
  by_cases hs : (fs.lookup k).isSome
  · rw [if_pos hs, lookup_map_set]
    by_cases hk : k' = k <;> simp [hk, hs]
  · rw [if_neg hs, lookup_append]
    by_cases hk : k' = k
    · subst hk
      cases hl : fs.lookup k' with
      | some w => rw [hl] at hs; simp at hs
      | none => simp [lookup_cons_ite]
    · cases hl : fs.lookup k' with
      | some w => simp [hk]
      | none =>
        rw [if_neg hk, lookup_cons_ite, if_neg hk]
        rfl

theorem assignPairs_lookup (s : List (String × JVal))
    (hs : (s.map Prod.fst).Nodup) :
    ∀ (t : List (String × JVal)) (k : String),
      (assignPairs t s).lookup k
        = if k ∈ s.map Prod.fst then s.lookup k else t.lookup k := by
  induction s with
  | nil => intro t k; simp [assignPairs]
  | cons p s ih =>
    obtain ⟨a, b⟩ := p
    intro t k
    simp only [List.map_cons, List.nodup_cons] at hs
    obtain ⟨ha, hs2⟩ := hs
    rw [show assignPairs t ((a, b) :: s) = assignPairs (setKey t a b) s from rfl]
    rw [ih hs2]
    by_cases hk : k ∈ s.map Prod.fst
    · have hka : k ≠ a := fun he => ha (he ▸ hk)
      rw [if_pos hk, if_pos (by simp [hk]), lookup_cons_ite, if_neg hka]
    · rw [if_neg hk, setKey_lookup]
      by_cases hka : k = a
      · subst hka
        rw [if_pos rfl, if_pos (by simp), lookup_cons_ite, if_pos rfl]
      · rw [if_neg hka, if_neg (by simp [hka, hk])]

theorem assignPairs_disjoint :
    ∀ (s t : List (String × JVal)),
      (∀ p ∈ s, t.lookup p.1 = none) → (s.map Prod.fst).Nodup →
      assignPairs t s = t ++ s := by
  intro s
  induction s with
  | nil => intro t _ _; simp [assignPairs]
  | cons p s ih =>
    obtain ⟨a, b⟩ := p
    intro t hdisj hnd
    simp only [List.map_cons, List.nodup_cons] at hnd
    obtain ⟨ha, hnd2⟩ := hnd
    rw [show assignPairs t ((a, b) :: s) = assignPairs (setKey t a b) s from rfl]
    have hset : setKey t a b = t ++ [(a, b)] := by
      unfold setKey
      rw [if_neg (by rw [hdisj (a, b) (by simp)]; simp)]
    rw [hset, ih (t ++ [(a, b)])]
    · simp
    · intro q hq
      rw [lookup_append, hdisj q (by simp [hq])]
      have hqa : q.1 ≠ a := by
        intro he
        exact ha (he ▸ (List.mem_map.mpr ⟨q, hq, rfl⟩))
      rw [lookup_cons_ite, if_neg hqa]
      rfl
    · exact hnd2

theorem assignPairs_copy (s : List (String × JVal)) (hs : (s.map Prod.fst).Nodup) :
    assignPairs [] s = s := by
  rw [assignPairs_disjoint s [] (fun p _ => rfl) hs]
  rfl

/-- C5: the merged order takes the detail record's value for every key
the detail record carries, keeps the snapshot value for every other key,
and collapses to the snapshot when the detail record is empty (in
particular when `loadOrder` failed and yielded `{}`). -/
theorem C5_merge_overlay (snap detail : List (String × JVal))
    (hsnap : (snap.map Prod.fst).Nodup) (hdetail : (detail.map Prod.fst).Nodup) :
    (∀ k, k ∈ detail.map Prod.fst →
      (mergedOrder (.obj snap) (.obj detail)).getF k = (JVal.obj detail).getF k)
    ∧ (∀ k, k ∉ detail.map Prod.fst →
      (mergedOrder (.obj snap) (.obj detail)).getF k = (JVal.obj snap).getF k)
    ∧ mergedOrder (.obj snap) (.obj []) = .obj snap
    ∧ (∀ (e : String) (oid : JVal),
        mergedOrder (.obj snap) (loadOrder (.error e) oid) = .obj snap) := by
  have hmerge : mergedOrder (.obj snap) (.obj detail)
      = .obj (assignPairs snap detail) := by
    unfold mergedOrder
    rw [show jsOr (JVal.obj detail) (.obj []) = .obj detail from
      jsOr_truthy _ _ (by simp [JVal.truthy])]
    rw [show ownPairs (JVal.obj snap) = snap from rfl,
      show ownPairs (JVal.obj detail) = detail from rfl,
      assignPairs_copy snap hsnap]
  have hempty : mergedOrder (.obj snap) (.obj []) = .obj snap := by
    unfold mergedOrder
    rw [show jsOr (JVal.obj []) (.obj []) = .obj [] from
      jsOr_truthy _ _ (by simp [JVal.truthy])]
    rw [show ownPairs (JVal.obj snap) = snap from rfl,
      show ownPairs (JVal.obj []) = ([] : List (String × JVal)) from rfl,
      assignPairs_copy snap hsnap]
    rw [show assignPairs snap [] = snap from rfl]
  refine ⟨?_, ?_, hempty, ?_⟩
  · intro k hk
    rw [hmerge]
    show ((assignPairs snap detail).lookup k).getD .undef = _
    rw [assignPairs_lookup detail hdetail snap k, if_pos hk]
    rfl
  · intro k hk
    rw [hmerge]
    show ((assignPairs snap detail).lookup k).getD .undef = _
    rw [assignPairs_lookup detail hdetail snap k, if_neg hk]
    rfl
  · intro e oid
    unfold loadOrder
    by_cases ho : oid.truthy
    · rw [if_neg (by simp [ho])]
      exact hempty
    · rw [if_pos (by simp [Bool.not_eq_true] at ho; simp [ho])]
      exact hempty

/-- Witness for C5 on concrete snapshot and detail records. -/
theorem C5_witness :
    (mergedOrder (.obj [("a", .num 1), ("b", .num 2)])
        (.obj [("b", .num 9), ("c", .num 3)])).getF "b"
      = (JVal.obj [("b", .num 9), ("c", .num 3)]).getF "b"
    ∧ (mergedOrder (.obj [("a", .num 1), ("b", .num 2)])
        (.obj [("b", .num 9), ("c", .num 3)])).getF "a"
      = (JVal.obj [("a", .num 1), ("b", .num 2)]).getF "a"
    ∧ mergedOrder (.obj [("a", .num 1), ("b", .num 2)]) (.obj [])
      = .obj [("a", .num 1), ("b", .num 2)] := by
  have h := C5_merge_overlay [("a", .num 1), ("b", .num 2)] [("b", .num 9), ("c", .num 3)]
    (by decide) (by decide)
  exact ⟨h.1 "b" (by decide), h.2.1 "a" (by decide), h.2.2.1⟩

/-! ### Claims C2 and C3: pagination -/

theorem fetchLoop_step_full (pageFetch : Nat → Except String JVal) (N : Nat)
    (hN : 1 ≤ N) (fuel page reqs : Nat) (out l : List JVal)
    (h : pageFetch page = .ok (.arr l)) (hlen : l.length = N) :
    fetchAllPagesLoop pageFetch N (fuel + 1) page out reqs
      = fetchAllPagesLoop pageFetch N fuel (page + 1) (out ++ l) (reqs + 1) := by
  simp only [fetchAllPagesLoop, h, extractArr]
  rw [if_neg (by omega : ¬(l.length = 0)), if_neg (by omega : ¬(l.length < N))]

theorem fetchLoop_step_short (pageFetch : Nat → Except String JVal) (N : Nat)
    (fuel page reqs : Nat) (out l : List JVal)
    (h : pageFetch page = .ok (.arr l)) (hne : l.length ≠ 0) (hlt : l.length < N) :
    fetchAllPagesLoop pageFetch N (fuel + 1) page out reqs
      = some (.ok (out ++ l, reqs + 1)) := by
  simp only [fetchAllPagesLoop, h, extractArr]
  rw [if_neg hne, if_pos hlt]

theorem fetchLoop_step_empty (pageFetch : Nat → Except String JVal) (N : Nat)
    (fuel page reqs : Nat) (out l : List JVal)
    (h : pageFetch page = .ok (.arr l)) (hz : l.length = 0) :
    fetchAllPagesLoop pageFetch N (fuel + 1) page out reqs
      = some (.ok (out, reqs + 1)) := by
  simp only [fetchAllPagesLoop, h, extractArr]
  rw [if_pos hz]

theorem fetchLoop_step_err (pageFetch : Nat → Except String JVal) (N : Nat)
    (fuel page reqs : Nat) (out : List JVal) (e : String)
    (h : pageFetch page = .error e) :
    fetchAllPagesLoop pageFetch N (fuel + 1) page out reqs = some (.error e) := by
  simp only [fetchAllPagesLoop, h]

/-- C2 (amended): three pages of sizes N, N, N−1 yield exactly
2·N + (N−1) items in exactly 3 page requests — with no 4th request, as
the result holds for every oracle agreeing on pages 1–3. -/
theorem C2_pagination_three_pages (N : Nat) (hN : 1 ≤ N)
    (pageFetch : Nat → Except String JVal) (l1 l2 l3 : List JVal)
    (h1 : pageFetch 1 = .ok (.arr l1)) (h2 : pageFetch 2 = .ok (.arr l2))
    (h3 : pageFetch 3 = .ok (.arr l3))
    (hl1 : l1.length = N) (hl2 : l2.length = N) (hl3 : l3.length = N - 1)
    (fuel : Nat) (hfuel : 3 ≤ fuel) :
    fetchAllPages pageFetch N fuel = some (.ok (l1 ++ l2 ++ l3, 3))
    ∧ (l1 ++ l2 ++ l3).length = 2 * N + (N - 1) := by
  obtain ⟨m, rfl⟩ : ∃ m, fuel = m + 3 := ⟨fuel - 3, by omega⟩
  constructor
  · show fetchAllPagesLoop pageFetch N (m + 3) 1 [] 0 = _
    rw [show m + 3 = (m + 2) + 1 from rfl,
      fetchLoop_step_full pageFetch N hN (m + 2) 1 0 [] l1 h1 hl1]
    rw [show m + 2 = (m + 1) + 1 from rfl,
      fetchLoop_step_full pageFetch N hN (m + 1) 2 1 ([] ++ l1) l2 h2 hl2]
    by_cases hone : N = 1
    · have hz : l3.length = 0 := by omega
      have hnil : l3 = [] := List.length_eq_zero.mp hz
      rw [fetchLoop_step_empty pageFetch N m 3 2 (([] ++ l1) ++ l2) l3 h3 hz, hnil]
      simp
    · rw [fetchLoop_step_short pageFetch N m 3 2 (([] ++ l1) ++ l2) l3 h3
        (by omega) (by omega)]
      simp
  · simp only [List.length_append]
    omega

/-- The page oracle of the C2 counterexample: pages of sizes 2, 2, 1. -/
def c2pages : Nat → Except String JVal := fun page =>
  if page = 1 then .ok (.arr [.num 1, .num 2])
  else if page = 2 then .ok (.arr [.num 3, .num 4])
  else if page = 3 then .ok (.arr [.num 5])
  else .ok (.arr [])

/-- C2 counterexample: at N = 2 the fetcher returns 5 items in 3
requests, but the claim demands 3·2 + (2−1) = 7 items. -/
theorem C2_counterexample :
    fetchAllPages c2pages 2 10
      = some (.ok ([.num 1, .num 2, .num 3, .num 4, .num 5], 3))
    ∧ [JVal.num 1, .num 2, .num 3, .num 4, .num 5].length = 5
    ∧ 5 ≠ 3 * 2 + (2 - 1) :=
  ⟨by with_unfolding_all rfl, rfl, by decide⟩

/-- Witness for C2 at N = 2 with the concrete page oracle. -/
theorem C2_witness :
    fetchAllPages c2pages 2 10
      = some (.ok (([JVal.num 1, JVal.num 2] ++ [JVal.num 3, JVal.num 4] ++ [JVal.num 5] : List JVal), 3))
    ∧ (([JVal.num 1, JVal.num 2] ++ [JVal.num 3, JVal.num 4] ++ [JVal.num 5] : List JVal)).length
        = 2 * 2 + (2 - 1) :=
  C2_pagination_three_pages 2 (by decide) c2pages [.num 1, .num 2] [.num 3, .num 4]
    [.num 5] rfl rfl rfl rfl rfl rfl 10 (by decide)

/-- On a full first page and a failing second page, `fetchAllPages`
propagates the executor's error. -/
theorem fetchAllPages_err_page2 (pf : Nat → Except String JVal) (ps : Nat)
    (hps : 0 < ps) (l1 : List JVal) (e : String)
    (h1 : pf 1 = .ok (.arr l1)) (hl1 : l1.length = ps) (h2 : pf 2 = .error e)
    (fuel : Nat) (hf : 2 ≤ fuel) :
    fetchAllPages pf ps fuel = some (.error e) := by
  obtain ⟨m, rfl⟩ : ∃ m, fuel = m + 2 := ⟨fuel - 2, by omega⟩
  show fetchAllPagesLoop pf ps (m + 2) 1 [] 0 = _
  rw [show m + 2 = (m + 1) + 1 from rfl,
    fetchLoop_step_full pf ps (by omega) (m + 1) 1 0 [] l1 h1 hl1,
    fetchLoop_step_err pf ps m 2 1 ([] ++ l1) e h2]

/-- C3 (amended): when the executor exhausts its retries on a page,
`fetchAllPages` raises the error to its caller, discarding every page
accumulated before the failure; the wrapping loaders catch it and
return the empty list — not the accumulated pages — so batch export
sees an empty result for that call rather than a hard error. -/
theorem C3_pagination_failure (pageFetch : Nat → Except String JVal) (pageSize : Nat)
    (hps : 0 < pageSize) (l1 : List JVal) (e : String)
    (h1 : pageFetch 1 = .ok (.arr l1)) (hl1 : l1.length = pageSize)
    (h2 : pageFetch 2 = .error e) (fuel : Nat) (hfuel : 2 ≤ fuel) :
    fetchAllPages pageFetch pageSize fuel = some (.error e)
    ∧ (∀ (oid : JVal) (pf : Nat → Except String JVal) (l : List JVal)
        (e2 : String) (fl : Nat), oid.truthy = true →
        pf 1 = .ok (.arr l) → l.length = 200 → pf 2 = .error e2 → 2 ≤ fl →
        loadLineItems pf oid fl = some [] ∧ loadShipments pf oid fl = some []) := by
  refine ⟨fetchAllPages_err_page2 pageFetch pageSize hps l1 e h1 hl1 h2 fuel hfuel, ?_⟩
  intro oid pf l e2 fl ho hp1 hlen hp2 hfl
  have herr : fetchAllPages pf 200 fl = some (.error e2) :=
    fetchAllPages_err_page2 pf 200 (by omega) l e2 hp1 hlen hp2 fl hfl
  constructor
  · unfold loadLineItems
    rw [if_neg (by simp [ho]), herr]
  · unfold loadShipments
    rw [if_neg (by simp [ho]), herr]

/-- The failing page oracle of the C3 counterexample (page size 1). -/
def c3pages : Nat → Except String JVal := fun page =>
  if page = 1 then .ok (.arr [.num 7]) else .error "boom"

/-- The failing page oracle of the C3 counterexample at the loaders'
fixed page size of 200. -/
def c3pages200 : Nat → Except String JVal := fun page =>
  if page = 1 then .ok (.arr (List.replicate 200 (.num 0))) else .error "boom"

/-- C3 counterexample: `fetchAllPages` raises a hard error to its
caller instead of yielding the accumulated page, and the loader yields
`[]` rather than the 200 items accumulated before the failure. -/
theorem C3_counterexample :
    fetchAllPages c3pages 1 10 = some (.error "boom")
    ∧ loadLineItems c3pages200 (.num 5) 10 = some []
    ∧ some ([] : List JVal) ≠ some (List.replicate 200 (JVal.num 0)) :=
  ⟨by with_unfolding_all rfl, by with_unfolding_all rfl, by decide⟩

/-- Witness for C3 with the concrete failing oracles. -/
theorem C3_witness :
    fetchAllPages c3pages 1 10 = some (.error "boom")
    ∧ loadLineItems c3pages200 (.num 5) 10 = some []
    ∧ loadShipments c3pages200 (.num 5) 10 = some [] := by
  have h := C3_pagination_failure c3pages 1 (by decide) [.num 7] "boom" rfl rfl rfl
    10 (by decide)
  have h2 := h.2 (.num 5) c3pages200 (List.replicate 200 (.num 0)) "boom" 10
    (by decide) rfl (by simp) rfl (by decide)
  exact ⟨h.1, h2.1, h2.2⟩

/-! ### Claim C6: the retry loop of safeFetch -/

/-- Whether one fetch attempt produced a 2xx response. -/
def ok2xx : FetchOutcome → Bool
  | .resp st _ _ => respOk st
  | .throws _ => false

/-- The response carried by a successful attempt (junk on a throw). -/
def outcomeResp : FetchOutcome → Resp
  | .resp st sx b => ⟨st, sx, b⟩
  | .throws _ => ⟨0, "", ""⟩

/-- The error a failed attempt contributes: the HTTP message for a
non-2xx response, the transport exception message for a throw. -/
def outcomeErr : FetchOutcome → String
  | .resp st sx b => httpErrMsg st sx b
  | .throws m => m

theorem sfA_ok (attempts : Nat → FetchOutcome) (delay i left : Nat)
    (h : ok2xx (attempts i) = true) :
    safeFetchAux attempts delay i left = (.ok (outcomeResp (attempts i)), 1, []) := by
  cases left with
  | zero =>
    cases ho : attempts i with
    | throws m => rw [ho] at h; simp [ok2xx] at h
    | resp st sx b =>
      rw [ho] at h
      simp only [ok2xx] at h
      simp [safeFetchAux, ho, h, outcomeResp]
  | succ l =>
    cases ho : attempts i with
    | throws m => rw [ho] at h; simp [ok2xx] at h
    | resp st sx b =>
      rw [ho] at h
      simp only [ok2xx] at h
      simp [safeFetchAux, ho, h, outcomeResp]

theorem sfA_fail_step (attempts : Nat → FetchOutcome) (delay i left : Nat)
    (h : ok2xx (attempts i) = false) :
    safeFetchAux attempts delay i (left + 1)
      = ((safeFetchAux attempts delay (i + 1) left).1,
         (safeFetchAux attempts delay (i + 1) left).2.1 + 1,
         delay :: (safeFetchAux attempts delay (i + 1) left).2.2) := by
  cases ho : attempts i with
  | throws m => simp [safeFetchAux, ho]
  | resp st sx b =>
    rw [ho] at h
    simp only [ok2xx] at h
    simp [safeFetchAux, ho, h]

theorem sfA_fail_last (attempts : Nat → FetchOutcome) (delay i : Nat)
    (h : ok2xx (attempts i) = false) :
    safeFetchAux attempts delay i 0 = (.error (outcomeErr (attempts i)), 1, []) := by
  cases ho : attempts i with
  | throws m => simp [safeFetchAux, ho, outcomeErr]
  | resp st sx b =>
    rw [ho] at h
    simp only [ok2xx] at h
    simp [safeFetchAux, ho, h, outcomeErr]

/-- C6: with the default budget (2 retries, 500ms delay) `safeFetch`
performs at most 3 attempts, sleeps exactly 500ms between consecutive
attempts, returns the response of the first attempt with a 2xx status,
and on exhaustion fails with the HTTP status/text message or the
transport exception of the last (third) attempt. -/
theorem C6_safeFetch_retry (attempts : Nat → FetchOutcome) :
    (safeFetch attempts 2 500).2.1 ≤ 3
    ∧ (safeFetch attempts 2 500).2.2
        = List.replicate ((safeFetch attempts 2 500).2.1 - 1) 500
    ∧ (∀ i, i ≤ 2 → (∀ j, j < i → ok2xx (attempts j) = false) →
        ok2xx (attempts i) = true →
        (safeFetch attempts 2 500).1 = .ok (outcomeResp (attempts i))
        ∧ (safeFetch attempts 2 500).2.1 = i + 1)
    ∧ ((∀ j, j ≤ 2 → ok2xx (attempts j) = false) →
        (safeFetch attempts 2 500).1 = .error (outcomeErr (attempts 2))
        ∧ (safeFetch attempts 2 500).2.1 = 3) := by
  by_cases h0 : ok2xx (attempts 0) = true
  · have hv : safeFetch attempts 2 500 = (.ok (outcomeResp (attempts 0)), 1, []) :=
      sfA_ok attempts 500 0 2 h0
    rw [hv]
    refine ⟨by simp, rfl, ?_, ?_⟩
    · intro i hi hprev hok
      cases i with
      | zero => exact ⟨rfl, rfl⟩
      | succ n => exact absurd h0 (by simp [hprev 0 (by omega)])
    · intro hall
      exact absurd h0 (by simp [hall 0 (by omega)])
  · have h0f : ok2xx (attempts 0) = false := by simpa using h0
    by_cases h1 : ok2xx (attempts 1) = true
    · have hv : safeFetch attempts 2 500 = (.ok (outcomeResp (attempts 1)), 2, [500]) := by
        show safeFetchAux attempts 500 0 2 = _
        rw [sfA_fail_step attempts 500 0 1 h0f, sfA_ok attempts 500 1 1 h1]
      rw [hv]
      refine ⟨by simp, rfl, ?_, ?_⟩
      · intro i hi hprev hok
        cases i with
        | zero => exact absurd hok (by simp [h0f])
        | succ n =>
          cases n with
          | zero => exact ⟨rfl, rfl⟩
          | succ p => exact absurd h1 (by simp [hprev 1 (by omega)])
      · intro hall
        exact absurd h1 (by simp [hall 1 (by omega)])
    · have h1f : ok2xx (attempts 1) = false := by simpa using h1
      by_cases h2 : ok2xx (attempts 2) = true
      · have hv : safeFetch attempts 2 500
            = (.ok (outcomeResp (attempts 2)), 3, [500, 500]) := by
          show safeFetchAux attempts 500 0 2 = _
          rw [sfA_fail_step attempts 500 0 1 h0f,
            sfA_fail_step attempts 500 1 0 h1f, sfA_ok attempts 500 2 0 h2]
        rw [hv]
        refine ⟨by simp, rfl, ?_, ?_⟩
        · intro i hi hprev hok
          cases i with
          | zero => exact absurd hok (by simp [h0f])
          | succ n =>
            cases n with
            | zero => exact absurd hok (by simp [h1f])
            | succ p =>
              cases p with
              | zero => exact ⟨rfl, rfl⟩
              | succ q => omega
        · intro hall
          exact absurd h2 (by simp [hall 2 (by omega)])
      · have h2f : ok2xx (attempts 2) = false := by simpa using h2
        have hv : safeFetch attempts 2 500
            = (.error (outcomeErr (attempts 2)), 3, [500, 500]) := by
          show safeFetchAux attempts 500 0 2 = _
          rw [sfA_fail_step attempts 500 0 1 h0f,
            sfA_fail_step attempts 500 1 0 h1f, sfA_fail_last attempts 500 2 h2f]
        rw [hv]
        refine ⟨by simp, rfl, ?_, ?_⟩
        · intro i hi hprev hok
          cases i with
          | zero => exact absurd hok (by simp [h0f])
          | succ n =>
            cases n with
            | zero => exact absurd hok (by simp [h1f])
            | succ p =>
              cases p with
              | zero => exact absurd hok (by simp [h2f])
              | succ q => omega
        · intro hall
          exact ⟨rfl, rfl⟩

/-- The attempt oracle of the C6 witness: a 500 response, then a
transport throw, then a 200 response. -/
def c6attempts : Nat → FetchOutcome := fun i =>
  if i = 0 then .resp 500 "Internal Server Error" "oops"
  else if i = 1 then .throws "socket hang up"
  else .resp 200 "OK" "body"

/-- Witness for C6: the third attempt succeeds after two failures. -/
theorem C6_witness :
    (safeFetch c6attempts 2 500).1 = .ok (outcomeResp (c6attempts 2))
    ∧ (safeFetch c6attempts 2 500).2.1 = 3
    ∧ (safeFetch c6attempts 2 500).2.1 ≤ 3
    ∧ (safeFetch c6attempts 2 500).2.2
        = List.replicate ((safeFetch c6attempts 2 500).2.1 - 1) 500 := by
  have h := C6_safeFetch_retry c6attempts
  have h3 := h.2.2.1 2 (by decide)
    (fun j hj => by
      match j, hj with
      | 0, _ => decide
      | 1, _ => decide)
    (by decide)
  exact ⟨h3.1, h3.2, h.1, h.2.1⟩

/-! ### Claim C7: reconcilers and throwing -/

/-- A value whose trim-after-defaulting cannot throw: a string, or any
falsy value (which `|| `-defaults to the empty string first). -/
def isStrOrFalsy : JVal → Bool
  | .str _ => true
  | v => !v.truthy

/-- Total counterpart of `cabContactFallback`, meaningful when the
order value is not nullish. -/
def cabContactFallbackT (order role : JVal) : JVal :=
  if role.strictEqStr "billing" then
    jsOr (order.getF "billing_contact") (jsOr (order.getF "shipping_contact") (.obj []))
  else if role.strictEqStr "shipping" then
    jsOr (order.getF "shipping_contact") (jsOr (order.getF "billing_contact") (.obj []))
  else
    jsOr (order.getF "shipping_contact") (jsOr (order.getF "billing_contact") (.obj []))

theorem cabContactFallback_ok (order role : JVal) (h : order.nullish = false) :
    cabContactFallback order role = .ok (cabContactFallbackT order role) := by
  unfold cabContactFallback cabContactFallbackT
  by_cases hbb : role.strictEqStr "billing"
  · rw [if_pos hbb, if_pos hbb, getE_ok _ _ h]
    rfl
  · rw [if_neg hbb, if_neg hbb]
    by_cases hs : role.strictEqStr "shipping"
    · rw [if_pos hs, if_pos hs, getE_ok _ _ h]
      rfl
    · rw [if_neg hs, if_neg hs, getE_ok _ _ h]
      rfl

theorem trimE_jsOr_ok (v : JVal) (h : isStrOrFalsy v = true) :
    ∃ s, trimE (jsOr v (.str "")) = .ok s := by
  cases v with
  | str s =>
    unfold jsOr
    split <;> exact ⟨_, rfl⟩
  | undef => exact ⟨"", rfl⟩
  | null => exact ⟨"", rfl⟩
  | bool b =>
    have hb : b = false := by simpa [isStrOrFalsy, JVal.truthy] using h
    subst hb
    exact ⟨"", rfl⟩
  | num n =>
    have hn : n = 0 := by simpa [isStrOrFalsy, JVal.truthy] using h
    subst hn
    exact ⟨"", rfl⟩
  | arr xs => simp [isStrOrFalsy, JVal.truthy] at h
  | obj fs => simp [isStrOrFalsy, JVal.truthy] at h

theorem cabNameTern_ok (first last : JVal) (hf : isStrOrFalsy first = true)
    (hl : isStrOrFalsy last = true) :
    ∃ s, cabNameTern first last = .ok s := by
  unfold cabNameTern
  by_cases ht : (jsOr first last).truthy
  · rw [if_pos ht]
    obtain ⟨fs, hfs⟩ := trimE_jsOr_ok first hf
    obtain ⟨ls, hls⟩ := trimE_jsOr_ok last hl
    rw [hfs]
    simp only [ok_bind]
    rw [hls]
    exact ⟨_, rfl⟩
  · rw [if_neg ht]
    exact ⟨"", rfl⟩

/-- Totality of the address-blob composition when the order argument is
not `null` and the resolved first/last name values are strings or
falsy. -/
theorem composeAddressBlob_ok (addr0 order0 extras0 : JVal)
    (horder : order0 ≠ .null)
    (hf : isStrOrFalsy (cabFirst (jsDefault addr0 (.obj []))
      (cabContact (jsDefault addr0 (.obj []))
        (cabContactFallbackT (jsDefault order0 (.obj []))
          (cabRole (jsDefault extras0 (.obj [])))))) = true)
    (hl : isStrOrFalsy (cabLast (jsDefault addr0 (.obj []))
      (cabContact (jsDefault addr0 (.obj []))
        (cabContactFallbackT (jsDefault order0 (.obj []))
          (cabRole (jsDefault extras0 (.obj [])))))) = true) :
    ∃ s, composeAddressBlob addr0 order0 extras0 = .ok s := by
  have hnn : (jsDefault order0 (.obj [])).nullish = false := by
    cases order0 <;> simp_all [jsDefault, JVal.nullish]
  unfold composeAddressBlob
  rw [cabContactFallback_ok _ _ hnn]
  simp only [ok_bind]
  obtain ⟨nt, hnt⟩ := cabNameTern_ok _ _ hf hl
  rw [hnt]
  simp only [ok_bind]
  exact ⟨_, rfl⟩

/-- Shape condition for a personalization attribute entry: formatting
throws only on `null`/`undefined` entries. -/
def attrOK : JVal → Bool
  | .str _ => true
  | v => !v.nullish

/-- Shape condition for one personalization item. -/
def persItemWF (item : JVal) : Bool :=
  !item.truthy ||
    (match item.getF "attributes" with
      | .arr as => as.all attrOK
      | _ => true)

/-- Shape condition for a personalization value: whenever the derived
item list is an array, every item satisfies `persItemWF`. -/
def persWF (pp : JVal) : Prop :=
  ∀ items, (if pp.isArray then pp
      else jsOr (pp.getF "personalizations")
        (jsOr (pp.getF "product_personalizations") (.arr []))) = .arr items →
    ∀ it ∈ items, persItemWF it = true

theorem formatAttr_ok (a : JVal) (h : attrOK a = true) : ∃ s, formatAttr a = .ok s := by
  cases a with
  | str s => exact ⟨s, rfl⟩
  | undef => simp [attrOK, JVal.nullish] at h
  | null => simp [attrOK, JVal.nullish] at h
  | bool b =>
    unfold formatAttr
    rw [getE_ok _ _ (by simp [JVal.nullish])]
    exact ⟨_, rfl⟩
  | num n =>
    unfold formatAttr
    rw [getE_ok _ _ (by simp [JVal.nullish])]
    exact ⟨_, rfl⟩
  | arr xs =>
    unfold formatAttr
    rw [getE_ok _ _ (by simp [JVal.nullish])]
    exact ⟨_, rfl⟩
  | obj fs =>
    unfold formatAttr
    rw [getE_ok _ _ (by simp [JVal.nullish])]
    exact ⟨_, rfl⟩

theorem persAttrs_ok (v : JVal)
    (h : (match v with
      | JVal.arr as => as.all attrOK
      | _ => true) = true) :
    ∃ s, persAttrs v = .ok s := by
  cases v with
  | arr as =>
    simp only at h
    obtain ⟨ms, hms⟩ := mapM_exists formatAttr as
      (fun a ha => formatAttr_ok a (List.all_eq_true.mp h a ha))
    rw [show persAttrs (JVal.arr as)
        = (do
            let mapped ← List.mapM formatAttr as
            pure (String.intercalate ", " (List.filter (fun s => s != "") mapped)) :
          Except String String) from rfl]
    rw [hms]
    exact ⟨_, rfl⟩
  | undef => exact ⟨"", rfl⟩
  | null => exact ⟨"", rfl⟩
  | bool b => exact ⟨"", rfl⟩
  | num n => exact ⟨"", rfl⟩
  | str t => exact ⟨"", rfl⟩
  | obj fs => exact ⟨"", rfl⟩

theorem formatPersItem_ok (item : JVal) (h : persItemWF item = true) :
    ∃ s, formatPersItem item = .ok s := by
  unfold formatPersItem
  by_cases ht : item.truthy
  · rw [if_neg (by simp [ht])]
    unfold persItemWF at h
    rw [show (!item.truthy) = false by simp [ht]] at h
    simp only [Bool.false_or] at h
    obtain ⟨as_, has⟩ := persAttrs_ok (item.getF "attributes") h
    rw [has]
    simp only [ok_bind]
    exact ⟨_, rfl⟩
  · rw [if_pos (by simp [Bool.not_eq_true] at ht; simp [ht])]
    exact ⟨"", rfl⟩

theorem persArrBranch_ok (items : List JVal)
    (h : ∀ it ∈ items, persItemWF it = true) :
    ∃ s, persArrBranch items = .ok s := by
  unfold persArrBranch
  by_cases hz : items.length = 0
  · rw [if_pos hz]; exact ⟨"", rfl⟩
  · rw [if_neg hz]
    obtain ⟨ms, hms⟩ := mapM_exists formatPersItem items
      (fun it hit => formatPersItem_ok it (h it hit))
    rw [hms]
    simp only [ok_bind]
    exact ⟨_, rfl⟩

theorem persMatch_ok (a : JVal)
    (h : ∀ items, a = .arr items → ∀ it ∈ items, persItemWF it = true) :
    ∃ s, (match a with
      | JVal.arr items => persArrBranch items
      | _ => (pure "" : Except String String)) = .ok s := by
  cases a with
  | arr items => exact persArrBranch_ok items (h items rfl)
  | undef => exact ⟨"", rfl⟩
  | null => exact ⟨"", rfl⟩
  | bool b => exact ⟨"", rfl⟩
  | num n => exact ⟨"", rfl⟩
  | str t => exact ⟨"", rfl⟩
  | obj fs => exact ⟨"", rfl⟩

theorem formatProductPersonalization_ok (pp : JVal) (h : persWF pp) :
    ∃ s, formatProductPersonalization pp = .ok s := by
  unfold formatProductPersonalization
  by_cases ht : pp.truthy
  · rw [if_neg (by simp [ht])]
    cases pp with
    | str s => exact ⟨s, rfl⟩
    | undef => simp [JVal.truthy] at ht
    | null => simp [JVal.truthy] at ht
    | bool b => exact persMatch_ok _ (fun items heq => h items heq)
    | num n => exact persMatch_ok _ (fun items heq => h items heq)
    | arr xs => exact persMatch_ok _ (fun items heq => h items heq)
    | obj fs => exact persMatch_ok _ (fun items heq => h items heq)
  · rw [if_pos (by simp [Bool.not_eq_true] at ht; simp [ht])]
    exact ⟨"", rfl⟩

theorem formatProductOptions_ok (opts : JVal) :
    ∃ s, formatProductOptions opts = .ok s := by
  unfold formatProductOptions
  by_cases ht : opts.truthy
  · rw [if_neg (by simp [ht])]
    cases opts with
    | str s => exact ⟨s, rfl⟩
    | arr xs => exact ⟨_, rfl⟩
    | obj fs => exact ⟨_, rfl⟩
    | undef => exact ⟨_, rfl⟩
    | null => exact ⟨_, rfl⟩
    | bool b => exact ⟨_, rfl⟩
    | num n => exact ⟨_, rfl⟩
  · rw [if_pos (by simp [Bool.not_eq_true] at ht; simp [ht])]
    exact ⟨"", rfl⟩

/-- C7 (amended): the reconcilers cannot throw under the shape
conditions the guards in the source actually establish.  Address
composition needs a non-`null` order and string-or-falsy resolved
first/last name values.  Tracking resolution needs every shipment
entry to satisfy `shipmentWF`: the entry is non-nullish, its
`line_item_ids` field is falsy or an array, its `line_items` field is
an array of non-nullish elements or falsy, and its `tracking_number`
and `tracking` fields are primitive (a truthy non-array
`line_item_ids` such as a string throws in `.map(String)`, so being an
object is not enough).  Personalization formatting needs every truthy
item of the derived array whose `attributes` field is an array to have
only non-nullish attribute entries.  Option formatting never throws. -/
theorem C7_reconcilers_no_throw :
    (∀ addr0 order0 extras0 : JVal, order0 ≠ .null →
      isStrOrFalsy (cabFirst (jsDefault addr0 (.obj []))
        (cabContact (jsDefault addr0 (.obj []))
          (cabContactFallbackT (jsDefault order0 (.obj []))
            (cabRole (jsDefault extras0 (.obj [])))))) = true →
      isStrOrFalsy (cabLast (jsDefault addr0 (.obj []))
        (cabContact (jsDefault addr0 (.obj []))
          (cabContactFallbackT (jsDefault order0 (.obj []))
            (cabRole (jsDefault extras0 (.obj [])))))) = true →
      ∃ s, composeAddressBlob addr0 order0 extras0 = .ok s)
    ∧ (∀ (order liId : JVal) (shipments : List JVal),
        (∀ s ∈ shipments, shipmentWF s = true) →
        ∃ out, trackingForLineItem
          (.obj [("order", order), ("shipments", .arr shipments)]) liId = .ok out)
    ∧ (∀ opts : JVal, ∃ s, formatProductOptions opts = .ok s)
    ∧ (∀ pp : JVal, persWF pp → ∃ s, formatProductPersonalization pp = .ok s) :=
  ⟨composeAddressBlob_ok,
   fun order liId shipments h => ⟨_, trackingForLineItem_eq_spec order liId shipments h⟩,
   formatProductOptions_ok,
   formatProductPersonalization_ok⟩

/-- C7 counterexample: with a `null` shipment entry — a shape the claim
explicitly includes — tracking resolution throws a `TypeError` reading
`tracking_number`, and personalization formatting throws on a `null`
attribute entry; so the reconcilers do not tolerate every input shape. -/
theorem C7_counterexample :
    trackingForLineItem (.obj [("shipments", .arr [.null])]) (.num 1)
      = .error "TypeError: cannot read tracking_number"
    ∧ formatProductPersonalization (.arr [.obj [("attributes", .arr [.null])]])
      = .error "TypeError: cannot read key"
    ∧ composeAddressBlob (.obj []) .null .undef
      = .error "TypeError: cannot read shipping_contact" :=
  ⟨by with_unfolding_all rfl, by with_unfolding_all rfl, by with_unfolding_all rfl⟩

/-- Witness for C7 at concrete well-formed inputs. -/
theorem C7_witness :
    (∃ s, composeAddressBlob (.obj [("first_name", .str "Jo"), ("zip", .str "10001")])
      .undef .undef = .ok s)
    ∧ (∃ out, trackingForLineItem (.obj [("order", .obj []), ("shipments", .arr
        [.obj [("tracking_number", .str "A"), ("line_item_ids", .arr [.num 1])]])])
        (.num 1) = .ok out)
    ∧ (∃ s, formatProductOptions
        (.arr [.obj [("option_name", .str "Size"), ("sub_option_name", .str "L")]]) = .ok s)
    ∧ (∃ s, formatProductPersonalization
        (.arr [.obj [("title", .str "Line1"),
          ("attributes", .arr [.obj [("key", .str "Text"), ("value", .str "HI")]])]]) = .ok s) := by
  refine ⟨?_, ?_, ?_, ?_⟩
  · exact C7_reconcilers_no_throw.1 _ _ _ (by simp) (by with_unfolding_all rfl)
      (by with_unfolding_all rfl)
  · exact C7_reconcilers_no_throw.2.1 _ _ _ (by decide)
  · exact C7_reconcilers_no_throw.2.2.1 _
  · exact C7_reconcilers_no_throw.2.2.2 _
      (fun items heq => by cases heq; decide)

/-! ### Claim C8: emitted rows are complete and nullish-free -/

/-- A row cell that leaks neither `null` nor `undefined`. -/
def notNU (v : JVal) : Prop := v ≠ .null ∧ v ≠ .undef

theorem notNU_str (s : String) : notNU (.str s) := by
  constructor <;> simp [notNU]

theorem truthy_notNU (v : JVal) (h : v.truthy = true) : notNU v := by
  cases v <;> simp_all [JVal.truthy, notNU]

theorem notNU_of_not_nullish (v : JVal) (h : v.nullish = false) : notNU v := by
  cases v <;> simp_all [JVal.nullish, notNU]

theorem notNU_ite {c : Prop} [Decidable c] {x y : JVal}
    (hx : notNU x) (hy : notNU y) : notNU (if c then x else y) := by
  split <;> assumption

theorem notNU_jsOr (a b : JVal) (hb : notNU b) : notNU (jsOr a b) := by
  unfold jsOr
  by_cases ht : a.truthy
  · rw [if_pos ht]; exact truthy_notNU a ht
  · rw [if_neg (by simp [ht])]; exact hb

theorem notNU_pick (obj : JVal) : ∀ keys : List String, notNU (pick obj keys) := by
  intro keys
  induction keys with
  | nil => exact notNU_str ""
  | cons k rest ih =>
    show notNU (if !obj.truthy then pick obj rest
      else if !(obj.getF k).nullish && strTrim (obj.getF k).toStr != "" then obj.getF k
      else pick obj rest)
    by_cases ho : obj.truthy
    · rw [if_neg (by simp [ho])]
      by_cases hv : (!(obj.getF k).nullish && strTrim (obj.getF k).toStr != "") = true
      · rw [if_pos hv]
        simp only [Bool.and_eq_true, Bool.not_eq_true'] at hv
        exact notNU_of_not_nullish _ hv.1
      · rw [if_neg hv]; exact ih
    · rw [if_pos (by simp [Bool.not_eq_true] at ho; simp [ho])]; exact ih

theorem notNU_of_pure_str (s : String) (w : JVal)
    (hw : (pure (JVal.str s) : Except String JVal) = .ok w) : notNU w := by
  have h2 : JVal.str s = w := by simpa [pure, Except.pure] using hw
  rw [← h2]
  exact notNU_str s

theorem notNU_jsOrE (x y : Except String JVal) (v : JVal)
    (hy : ∀ w, y = .ok w → notNU w) (hok : jsOrE x y = .ok v) : notNU v := by
  unfold jsOrE at hok
  cases x with
  | error e => simp [Bind.bind, Except.bind] at hok
  | ok va =>
    rw [ok_bind] at hok
    by_cases ht : va.truthy
    · rw [if_pos (by simp [ht])] at hok
      have h2 : va = v := by simpa [pure, Except.pure] using hok
      rw [← h2]
      exact truthy_notNU va ht
    · rw [if_neg (by simp [ht])] at hok
      exact hy v hok

theorem exc_map_ok {α β : Type} (f : α → β) (x : Except String α) (b : β) :
    (f <$> x = .ok b) ↔ ∃ a, x = .ok a ∧ f a = b := by
  cases x <;> simp [Functor.map, Except.map]

theorem exc_pure_ok {α : Type} (a b : α) :
    ((pure a : Except String α) = .ok b) ↔ a = b := by
  simp [pure, Except.pure]

/-- Every successfully built detailed-mode row has exactly 34 cells and
no cell is `null` or `undefined`: each cell is either an explicit string
coercion, a `||`-chain ending in the empty string, a `pick` (which falls
back to the empty string), or a ternary between such values. -/
theorem buildDetailedRow_complete (order li shipments : JVal) (row : List JVal)
    (h : buildDetailedRow order li shipments = .ok row) :
    row.length = 34 ∧ ∀ v ∈ row, notNU v := by
  unfold buildDetailedRow at h
  simp only [exc_bind_ok, exc_map_ok, exc_pure_ok] at h
  obtain ⟨liId, hli, h⟩ := h
  obtain ⟨tracking, htr, h⟩ := h
  cases shipments <;>
    simp only [exc_bind_ok, exc_map_ok, exc_pure_ok, reduceCtorEq,
      false_and, exists_false] at h
  case arr ys =>
    obtain ⟨y, hy, h⟩ := h
    obtain ⟨rep0, hrep, h⟩ := h
    obtain ⟨sl, hsl, h⟩ := h
    obtain ⟨sm, hsm, h⟩ := h
    obtain ⟨pl, hpl, h⟩ := h
    obtain ⟨ppv, hpp, h⟩ := h
    obtain ⟨pov, hpo, h⟩ := h
    obtain ⟨bi, hbi, h⟩ := h
    obtain ⟨si, hsi, h⟩ := h
    subst h
    refine ⟨rfl, ?_⟩
    intro v hv
    simp only [List.mem_cons, List.not_mem_nil, or_false] at hv
    rcases hv with rfl|rfl|rfl|rfl|rfl|rfl|rfl|rfl|rfl|rfl|rfl|rfl|rfl|rfl|rfl|rfl|rfl|rfl|rfl|rfl|rfl|rfl|rfl|rfl|rfl|rfl|rfl|rfl|rfl|rfl|rfl|rfl|rfl|rfl
    all_goals first
      | exact notNU_str _
      | exact notNU_pick _ _
      | exact notNU_jsOr _ _ (notNU_str _)
      | exact notNU_jsOr _ _ (notNU_jsOr _ _ (notNU_str _))
      | exact notNU_jsOr _ _ (notNU_pick _ _)
      | exact notNU_ite (notNU_str _) (notNU_jsOr _ _ (notNU_str _))
      | exact notNU_jsOrE _ _ _ (fun w hw => notNU_of_pure_str "" w hw) hsm
      | exact notNU_jsOrE _ _ _
          (fun w hw => notNU_jsOrE _ _ w (fun w2 hw2 => notNU_of_pure_str "" w2 hw2) hw) hsl

/-- Every successfully built summary-mode row has exactly 34 cells and
no cell is `null` or `undefined`. -/
theorem buildSummaryRow_complete (order : JVal) (row : List JVal)
    (h : buildSummaryRow order = .ok row) :
    row.length = 34 ∧ ∀ v ∈ row, notNU v := by
  unfold buildSummaryRow at h
  simp only [exc_bind_ok, exc_map_ok, exc_pure_ok] at h
  obtain ⟨b0, hb0, h⟩ := h
  obtain ⟨bi, hbi, h⟩ := h
  obtain ⟨si, hsi, h⟩ := h
  subst h
  refine ⟨rfl, ?_⟩
  intro v hv
  simp only [List.cons_append, List.nil_append, List.mem_cons,
    List.not_mem_nil, or_false] at hv
  rcases hv with rfl|rfl|rfl|rfl|rfl|rfl|rfl|rfl|rfl|rfl|rfl|rfl|rfl|rfl|rfl|rfl|rfl|rfl|rfl|rfl|rfl|rfl|rfl|rfl|rfl|rfl|rfl|rfl|rfl|rfl|rfl|rfl|rfl|rfl
  all_goals first
    | exact notNU_str _
    | exact notNU_pick _ _
    | exact notNU_jsOr _ _ (notNU_str _)
    | exact notNU_jsOr _ _ (notNU_jsOr _ _ (notNU_str _))
    | exact notNU_jsOr _ _ (notNU_pick _ _)

/-- **C8.** For every emitted output row, in both detailed mode
(server file lines 339–358) and summary mode (lines 363–389), the row
has exactly 34 columns (14 base `COLUMNS` plus 20 `STRUCTURED_COLUMNS`)
and no cell is ever `null` or `undefined`: any field that could not be
resolved degrades to the empty string. -/
theorem C8_rows_complete (order li shipments o2 : JVal) (row srow : List JVal)
    (hd : buildDetailedRow order li shipments = .ok row)
    (hs : buildSummaryRow o2 = .ok srow) :
    (row.length = 34 ∧ ∀ v ∈ row, notNU v) ∧
    (srow.length = 34 ∧ ∀ v ∈ srow, notNU v) :=
  ⟨buildDetailedRow_complete order li shipments row hd,
   buildSummaryRow_complete o2 srow hs⟩

/-- A concrete order for the C8 witness. -/
def c8order : JVal := .obj [("id", .num 7), ("status", .str "open"),
  ("placed_at", .str "2024-01-02"), ("billing", .obj []),
  ("billing_contact", .obj [("first_name", .str "A"), ("last_name", .str "B"),
    ("email", .str "a@b.c")]),
  ("shipping_address", .obj [("city", .str "Baltimore")])]

/-- A concrete line item for the C8 witness. -/
def c8li : JVal := .obj [("id", .num 9), ("quantity", .num 2), ("name", .str "W")]

/-- A concrete shipment list for the C8 witness. -/
def c8ship : JVal := .arr [.obj [("tracking_number", .str "T"),
  ("line_item_ids", .arr [.num 9]), ("shipping_method", .str "GRD"),
  ("ship_date", .str "2024-01-05")]]

theorem C8_witness :
    ∃ row srow, buildDetailedRow c8order c8li c8ship = .ok row ∧
      buildSummaryRow c8order = .ok srow ∧
      ((row.length = 34 ∧ ∀ v ∈ row, notNU v) ∧
       (srow.length = 34 ∧ ∀ v ∈ srow, notNU v)) := by
  obtain ⟨row, hrow⟩ : ∃ row, buildDetailedRow c8order c8li c8ship = .ok row :=
    ⟨_, by with_unfolding_all rfl⟩
  obtain ⟨srow, hsrow⟩ : ∃ srow, buildSummaryRow c8order = .ok srow :=
    ⟨_, by with_unfolding_all rfl⟩
  exact ⟨row, srow, hrow, hsrow,
    C8_rows_complete c8order c8li c8ship c8order row srow hrow hsrow⟩

end BrightSites
